import Mathlib

/-!
Verification development for the Realflow webhook backend (`src/main.py`).

The Python source is shallowly embedded: JSON-ish Python values become the
inductive `Value`, Python dicts become association lists (`Dict`), pure helper
functions (`calculate_lead_score`, `is_hot_lead`, `normalize_parameters`)
become Lean functions over those, and the Supabase-backed handlers become
explicit state-passing functions over a `DB` record.  Python code that can
raise is modelled with `Except String`; the handlers' own `try/except` blocks
are modelled by converting such errors into `{"success": false, ...}` results,
exactly where the source does.  The model takes the datastore client as
configured (the source's `if supabase:` guard taken as true): the claims under
study are about the persistence behaviour, which only exists on that branch.
Wall-clock timestamps (`datetime.now()`) are modelled by a logical clock
carried in the `DB` state, and Supabase-assigned surrogate ids by a counter.
-/

namespace Realflow

/-- Python/JSON values as they occur in webhook payloads: `None`, booleans,
(integer) numbers, strings, lists and dicts.  Floating point numbers are
outside the model. -/
inductive Value where
  | null : Value
  | bool (b : Bool) : Value
  | num (n : Int) : Value
  | str (s : String) : Value
  | arr (elems : List Value) : Value
  | dict (fields : List (String × Value)) : Value
deriving Inhabited

mutual
def Value.decEq : (a b : Value) → Decidable (a = b)
  | .null, .null => isTrue rfl
  | .null, .bool _ => isFalse (fun h => Value.noConfusion h)
  | .null, .num _ => isFalse (fun h => Value.noConfusion h)
  | .null, .str _ => isFalse (fun h => Value.noConfusion h)
  | .null, .arr _ => isFalse (fun h => Value.noConfusion h)
  | .null, .dict _ => isFalse (fun h => Value.noConfusion h)
  | .bool _, .null => isFalse (fun h => Value.noConfusion h)
  | .bool a, .bool b =>
    match instDecidableEqBool a b with
    | isTrue h => isTrue (by rw [h])
    | isFalse h => isFalse (fun hh => h (Value.bool.inj hh))
  | .bool _, .num _ => isFalse (fun h => Value.noConfusion h)
  | .bool _, .str _ => isFalse (fun h => Value.noConfusion h)
  | .bool _, .arr _ => isFalse (fun h => Value.noConfusion h)
  | .bool _, .dict _ => isFalse (fun h => Value.noConfusion h)
  | .num _, .null => isFalse (fun h => Value.noConfusion h)
  | .num _, .bool _ => isFalse (fun h => Value.noConfusion h)
  | .num a, .num b =>
    match Int.instDecidableEq a b with
    | isTrue h => isTrue (by rw [h])
    | isFalse h => isFalse (fun hh => h (Value.num.inj hh))
  | .num _, .str _ => isFalse (fun h => Value.noConfusion h)
  | .num _, .arr _ => isFalse (fun h => Value.noConfusion h)
  | .num _, .dict _ => isFalse (fun h => Value.noConfusion h)
  | .str _, .null => isFalse (fun h => Value.noConfusion h)
  | .str _, .bool _ => isFalse (fun h => Value.noConfusion h)
  | .str _, .num _ => isFalse (fun h => Value.noConfusion h)
  | .str a, .str b =>
    match instDecidableEqString a b with
    | isTrue h => isTrue (by rw [h])
    | isFalse h => isFalse (fun hh => h (Value.str.inj hh))
  | .str _, .arr _ => isFalse (fun h => Value.noConfusion h)
  | .str _, .dict _ => isFalse (fun h => Value.noConfusion h)
  | .arr _, .null => isFalse (fun h => Value.noConfusion h)
  | .arr _, .bool _ => isFalse (fun h => Value.noConfusion h)
  | .arr _, .num _ => isFalse (fun h => Value.noConfusion h)
  | .arr _, .str _ => isFalse (fun h => Value.noConfusion h)
  | .arr xs, .arr ys =>
    match Value.decEqList xs ys with
    | isTrue h => isTrue (by rw [h])
    | isFalse h => isFalse (fun hh => h (Value.arr.inj hh))
  | .arr _, .dict _ => isFalse (fun h => Value.noConfusion h)
  | .dict _, .null => isFalse (fun h => Value.noConfusion h)
  | .dict _, .bool _ => isFalse (fun h => Value.noConfusion h)
  | .dict _, .num _ => isFalse (fun h => Value.noConfusion h)
  | .dict _, .str _ => isFalse (fun h => Value.noConfusion h)
  | .dict _, .arr _ => isFalse (fun h => Value.noConfusion h)
  | .dict xs, .dict ys =>
    match Value.decEqPairs xs ys with
    | isTrue h => isTrue (by rw [h])
    | isFalse h => isFalse (fun hh => h (Value.dict.inj hh))

def Value.decEqList : (a b : List Value) → Decidable (a = b)
  | [], [] => isTrue rfl
  | [], _ :: _ => isFalse (fun h => List.noConfusion h)
  | _ :: _, [] => isFalse (fun h => List.noConfusion h)
  | x :: xs, y :: ys =>
    match Value.decEq x y with
    | isTrue h1 =>
      match Value.decEqList xs ys with
      | isTrue h2 => isTrue (by rw [h1, h2])
      | isFalse h2 => isFalse (fun hh => h2 (List.cons.inj hh).2)
    | isFalse h1 => isFalse (fun hh => h1 (List.cons.inj hh).1)

def Value.decEqPairs : (a b : List (String × Value)) → Decidable (a = b)
  | [], [] => isTrue rfl
  | [], _ :: _ => isFalse (fun h => List.noConfusion h)
  | _ :: _, [] => isFalse (fun h => List.noConfusion h)
  | (k, v) :: xs, (k', v') :: ys =>
    match instDecidableEqString k k' with
    | isTrue hk =>
      match Value.decEq v v' with
      | isTrue hv =>
        match Value.decEqPairs xs ys with
        | isTrue h2 => isTrue (by rw [hk, hv, h2])
        | isFalse h2 => isFalse (fun hh => h2 (List.cons.inj hh).2)
      | isFalse hv =>
        isFalse (fun hh => hv (congrArg Prod.snd (List.cons.inj hh).1))
    | isFalse hk =>
      isFalse (fun hh => hk (congrArg Prod.fst (List.cons.inj hh).1))
end

instance : DecidableEq Value := Value.decEq

/-- A Python dict with string keys, as an association list (keys unique in any
dict actually built by the code; lookup takes the first match). -/
abbrev Dict := List (String × Value)

/-- Python truthiness (`bool(v)`): empty string/list/dict, `0`, `False` and
`None` are falsy, everything else truthy. -/
def Value.truthy : Value → Bool
  | .null => false
  | .bool b => b
  | .num n => n != 0
  | .str s => s ≠ ""
  | .arr xs => !xs.isEmpty
  | .dict kvs => !kvs.isEmpty

/-- First-match association lookup (Python `d[k]` / `k in d`). -/
def lookupA : Dict → String → Option Value
  | [], _ => none
  | (k, v) :: rest, key => if k = key then some v else lookupA rest key

/-- Python `d.get(k, default)`. -/
def dictGetD (d : Dict) (k : String) (dflt : Value) : Value :=
  (lookupA d k).getD dflt

/-- Python `d.get(k)` (default `None`). -/
def dictGetNull (d : Dict) (k : String) : Value :=
  (lookupA d k).getD .null

/-- Python dict assignment `d[k] = v`: replace in place if the key exists,
else append. -/
def dictSet (d : Dict) (k : String) (v : Value) : Dict :=
  if d.any (fun kv => kv.1 = k) then
    d.map (fun kv => if kv.1 = k then (k, v) else kv)
  else
    d ++ [(k, v)]

/-- Python `a or b` for values (left operand wins when truthy). -/
def pyOr (a b : Value) : Value := if a.truthy then a else b

/-- Whether `needle` occurs as a contiguous sublist of `hay` (Python `in` on strings). -/
def listHasSub (needle : List Char) : List Char → Bool
  | [] => needle.isEmpty
  | c :: rest => needle.isPrefixOf (c :: rest) || listHasSub needle rest

/-- Python `needle in hay` for strings. -/
def strIn (needle hay : String) : Bool :=
  listHasSub needle.toList hay.toList

/-- Python `s.lower()` (ASCII; the repository only compares ASCII markers). -/
def pyLower (s : String) : String := String.mk (s.data.map Char.toLower)

/-- Python `any(n in hay for n in needles)`. -/
def containsAny (hay : String) (needles : List String) : Bool :=
  needles.any (fun n => strIn n hay)

mutual
/-- Python `repr(v)` (used for elements inside container `str()`; string
escaping inside `repr` is not modelled beyond quoting). -/
def pyRepr : Value → String
  | .null => "None"
  | .bool true => "True"
  | .bool false => "False"
  | .num n => toString n
  | .str s => "\x27" ++ s ++ "\x27"
  | .arr xs => "[" ++ ", ".intercalate (pyReprList xs) ++ "]"
  | .dict kvs => "\x7b" ++ ", ".intercalate (pyReprPairs kvs) ++ "\x7d"

def pyReprList : List Value → List String
  | [] => []
  | v :: vs => pyRepr v :: pyReprList vs

def pyReprPairs : List (String × Value) → List String
  | [] => []
  | (k, v) :: kvs => ("\x27" ++ k ++ "\x27: " ++ pyRepr v) :: pyReprPairs kvs
end

/-- Python `str(v)`; identical to `repr` except on strings, which render
unquoted. -/
def pyStr : Value → String
  | .null => "None"
  | .bool true => "True"
  | .bool false => "False"
  | .num n => toString n
  | .str s => s
  | .arr xs => "[" ++ ", ".intercalate (pyReprList xs) ++ "]"
  | .dict kvs => "\x7b" ++ ", ".intercalate (pyReprPairs kvs) ++ "\x7d"

/-- Python `min(a, b)`. -/
def pyMin (a b : Int) : Int := if a ≤ b then a else b

/-- Python `max(a, b)`. -/
def pyMax (a b : Int) : Int := if b ≤ a then a else b

instance instDecEqExcept {ε α : Type} [DecidableEq ε] [DecidableEq α] :
    DecidableEq (Except ε α)
  | .error e, .error e' =>
    if h : e = e' then isTrue (by rw [h])
    else isFalse (fun hh => h (Except.error.inj hh))
  | .error _, .ok _ => isFalse (fun h => Except.noConfusion h)
  | .ok _, .error _ => isFalse (fun h => Except.noConfusion h)
  | .ok a, .ok a' =>
    if h : a = a' then isTrue (by rw [h])
    else isFalse (fun hh => h (Except.ok.inj hh))

/-! ## Lead scoring (`calculate_lead_score`, src/main.py lines 77-141) -/

/-- The table `urgency_scores.get(urgency, 0)` for a string key. -/
def urgencyTable (s : String) : Int :=
  if s = "immediate" then 30
  else if s = "1-3 months" then 25
  else if s = "3-6 months" then 15
  else if s = "6+ months" then 5
  else if s = "just browsing" then 0
  else 0

/-- The table `role_scores.get(role, 0)` for a string key. -/
def roleTable (s : String) : Int :=
  if s = "buyer" then 15
  else if s = "investor" then 15
  else if s = "developer" then 12
  else if s = "seller" then 10
  else if s = "broker" then 8
  else if s = "tenant" then 5
  else if s = "landlord" then 5
  else 0

/-- The table `sentiment_scores.get(sentiment, 5)` for a string key. -/
def sentimentTable (s : String) : Int :=
  if s = "very_positive" then 10
  else if s = "positive" then 8
  else if s = "neutral" then 5
  else if s = "negative" then 2
  else if s = "frustrated" then 0
  else 5

/-- Python `table.get(v, dflt)` for an arbitrary value `v`: the string-keyed
tables never contain non-string keys, so any hashable non-string key falls to
the default, while an unhashable key (list, dict) raises `TypeError`. -/
def hashGet (v : Value) (table : String → Int) (dflt : Int) : Except String Int :=
  match v with
  | .arr _ => .error "TypeError: unhashable type: list"
  | .dict _ => .error "TypeError: unhashable type: dict"
  | .str s => .ok (table s)
  | _ => .ok dflt

/-- Deal-size sub-score (0-25): tiered case-insensitive substring match on
`str(deal_size).lower()`; any other truthy value scores 10, falsy scores 0. -/
def dealSizeScore (v : Value) : Int :=
  if v.truthy then
    let deal_lower := pyLower (pyStr v)
    if containsAny deal_lower ["10m", "million", "20m", "50m"] then 25
    else if containsAny deal_lower ["5m", "1m", "2m"] then 20
    else if containsAny deal_lower ["500k", "750k"] then 15
    else 10
  else 0

/-- Premium asset types (`premium_assets`). -/
def premiumAssets : List Value :=
  [.str "multifamily", .str "industrial", .str "mixed-use", .str "office"]

/-- Asset-type sub-score (0-10): membership in `premium_assets` scores 10, any
other truthy value 5, falsy 0. -/
def assetScore (v : Value) : Int :=
  if premiumAssets.contains v then 10
  else if v.truthy then 5
  else 0

/-- The raw sum of the five sub-scores plus the email bonus, before the final
`min(score, 100)` clamp.  Errors model the `TypeError` raised by the
string-keyed `dict.get` calls when handed an unhashable value. -/
def leadScoreRaw (data : Dict) : Except String Int := do
  let u ← hashGet (dictGetD data "urgency" (.str "")) urgencyTable 0
  let d := dealSizeScore (dictGetD data "deal_size" (.str ""))
  let r ← hashGet (dictGetD data "caller_role" (.str "")) roleTable 0
  let a := assetScore (dictGetD data "asset_type" (.str ""))
  let s ← hashGet (dictGetD data "sentiment" (.str "neutral")) sentimentTable 5
  let e : Int := if (dictGetNull data "caller_email").truthy then 10 else 0
  pure (u + d + r + a + s + e)

/-- The function `calculate_lead_score(data)`: the raw sum clamped by `min(score, 100)`. -/
def calculate_lead_score (data : Dict) : Except String Int :=
  (leadScoreRaw data).map (fun t => pyMin t 100)

/-! ## Hot-lead classification (`is_hot_lead`, src/main.py lines 143-159) -/

/-- Top-tier deal condition: `deal_size and any(i in str(deal_size).lower()
for i in ["10m","million","20m","50m"])`. -/
def topTierDeal (v : Value) : Bool :=
  v.truthy && containsAny (pyLower (pyStr v)) ["10m", "million", "20m", "50m"]

/-- The function `is_hot_lead(score, urgency, deal_size)`: collects the reason strings and
returns the hot flag together with the comma-joined reason (or `None`). -/
def is_hot_lead (score : Int) (urgency : Value) (deal_size : Value) :
    Bool × Option String :=
  let reasons : List String :=
    (if 75 ≤ score then ["High lead score (" ++ toString score ++ "/100)"] else [])
    ++ (if urgency = .str "immediate" then ["Immediate timeline"] else [])
    ++ (if topTierDeal deal_size then ["High deal value (" ++ pyStr deal_size ++ ")"] else [])
  let hot := decide (75 ≤ score) || decide (urgency = .str "immediate")
    || decide (2 ≤ reasons.length)
  let reason : Option String :=
    if reasons = [] then none else some (", ".intercalate reasons)
  (hot, reason)

/-- The hot-lead rule as the claim simplifies it: score at least 75, or an
immediate timeline. -/
def hotLeadSimplified (score : Int) (urgency : Value) : Bool :=
  decide (75 ≤ score) || decide (urgency = Value.str "immediate")

/-! ## Argument normalization (`normalize_parameters`, src/main.py lines 163-218) -/

/-- The `aliases` table, in the source's declared order. -/
def aliasTable : List (String × List String) := [
  ("caller_name", ["caller_name", "name", "caller", "callerFullName"]),
  ("caller_phone", ["caller_phone", "phone", "from", "caller_phone_number", "callerPhone"]),
  ("caller_email", ["caller_email", "email", "callerEmail"]),
  ("caller_role", ["caller_role", "role", "user_role"]),
  ("asset_type", ["asset_type", "asset", "property_type", "assetType"]),
  ("location", ["location", "city", "market"]),
  ("deal_size", ["deal_size", "value", "budget_range", "dealValue"]),
  ("urgency", ["urgency", "timeline"]),
  ("inquiry_summary", ["inquiry_summary", "inquiry", "summary", "notes"]),
  ("additional_notes", ["additional_notes", "notes", "extra_notes"]),
  ("is_hot_lead", ["is_hot_lead", "is_hot", "hot", "hot_lead"]),
  ("conversation_topics", ["conversation_topics", "topics"]),
  ("questions_asked", ["questions_asked", "questions"])]

/-- Python `sum(aliases.values(), [])`. -/
def allAliases : List String := (aliasTable.map Prod.snd).flatten

/-- Python `v not in (None, "")`. -/
def usable (v : Value) : Bool := !(v = Value.null || v = Value.str "")

/-- The first alias of the given list present in `args` with a usable value
(the body of the `for a in aliases[key]` loop). -/
def firstAliasVal (args : Dict) : List String → Option Value
  | [] => none
  | a :: rest =>
    match lookupA args a with
    | some v => if usable v then some v else firstAliasVal args rest
    | none => firstAliasVal args rest

/-- The alias-resolution pass: one canonical entry per table row whose alias
scan found a usable value, in table order. -/
def resolveAliases (args : Dict) : Dict :=
  aliasTable.filterMap (fun p => (firstAliasVal args p.2).map (fun v => (p.1, v)))

/-- The pass-through pass: keys that are no alias are copied intact. -/
def passThrough (args : Dict) : Dict :=
  args.filter (fun kv => !(allAliases.contains kv.1))

/-- The boolean coercion applied to a present `is_hot_lead` value: strings are
truthy only for "1"/"true"/"yes" case-insensitively, anything else through
Python `bool()`. -/
def coerceVal (v : Value) : Value :=
  match v with
  | .str s => .bool (pyLower s = "1" || pyLower s = "true" || pyLower s = "yes")
  | v => .bool v.truthy

/-- In-place replacement of an `is_hot_lead` entry by its coerced value. -/
def hotfixEntry (kv : String × Value) : String × Value :=
  if kv.1 = "is_hot_lead" then (kv.1, coerceVal kv.2) else kv

/-- The value-level effect of the coercion pass on the entry at key `k`. -/
def hotValFix (k : String) (v : Value) : Value :=
  if k = "is_hot_lead" then coerceVal v else v

/-- The `if "is_hot_lead" in canonical` coercion step. -/
def coerceHot (c : Dict) : Dict :=
  if (lookupA c "is_hot_lead").isSome then c.map hotfixEntry else c

/-- The function `normalize_parameters(arguments)` for a dict argument (the
`isinstance(arguments, str)` branch is `normalizeString` below). -/
def normalize_parameters (args : Dict) : Dict :=
  if args = [] then [] else coerceHot (resolveAliases args ++ passThrough args)

/-! ## A model of `json.loads`

Restricted to integer numerals (the repository never relies on float payload
values; floating point is outside the model) and to `\uXXXX`-free basic
escapes plus `\u` hex escapes.  Leading zeros are rejected as in JSON.  Fuel
makes every function structurally recursive. -/

def isWs (c : Char) : Bool := c = ' ' || c = '\t' || c = '\n' || c = '\r'

def skipWs : List Char → List Char
  | [] => []
  | c :: rest => if isWs c then skipWs rest else c :: rest

def hexVal (c : Char) : Option Nat :=
  if '0' ≤ c ∧ c ≤ '9' then some (c.toNat - '0'.toNat)
  else if 'a' ≤ c ∧ c ≤ 'f' then some (c.toNat - 'a'.toNat + 10)
  else if 'A' ≤ c ∧ c ≤ 'F' then some (c.toNat - 'A'.toNat + 10)
  else none

def digitVal (c : Char) : Option Nat :=
  if '0' ≤ c ∧ c ≤ '9' then some (c.toNat - '0'.toNat) else none

def takeDigits : List Char → (List Nat × List Char)
  | [] => ([], [])
  | c :: rest =>
    match digitVal c with
    | some d =>
      let p := takeDigits rest
      (d :: p.1, p.2)
    | none => ([], c :: rest)

def digitsToNat (ds : List Nat) : Nat := ds.foldl (fun acc d => acc * 10 + d) 0

/-- Parse the characters of a JSON string after the opening quote. -/
def parseStrChars : Nat → List Char → Option (List Char × List Char)
  | 0, _ => none
  | _, [] => none
  | f + 1, c :: rest =>
    if c = '\x22' then some ([], rest)
    else if c = '\\' then
      match rest with
      | [] => none
      | e :: rest2 =>
        let dec : Option (Char × List Char) :=
          if e = '\x22' then some ('\x22', rest2)
          else if e = '\\' then some ('\\', rest2)
          else if e = '/' then some ('/', rest2)
          else if e = 'b' then some ('\x08', rest2)
          else if e = 'f' then some ('\x0c', rest2)
          else if e = 'n' then some ('\n', rest2)
          else if e = 'r' then some ('\r', rest2)
          else if e = 't' then some ('\t', rest2)
          else if e = 'u' then
            match rest2 with
            | h1 :: h2 :: h3 :: h4 :: rest3 =>
              match hexVal h1, hexVal h2, hexVal h3, hexVal h4 with
              | some a, some b, some c2, some d2 =>
                some (Char.ofNat (((a * 16 + b) * 16 + c2) * 16 + d2), rest3)
              | _, _, _, _ => none
            | _ => none
          else none
        match dec with
        | some (ch, rest3) => (parseStrChars f rest3).map (fun p => (ch :: p.1, p.2))
        | none => none
    else if c.toNat < 32 then none
    else (parseStrChars f rest).map (fun p => (c :: p.1, p.2))

/-- Parse a JSON integer numeral (floats are outside the model). -/
def parseIntNum (cs : List Char) : Option (Value × List Char) :=
  let sp : Bool × List Char :=
    match cs with
    | '-' :: rest => (true, rest)
    | _ => (false, cs)
  match takeDigits sp.2 with
  | ([], _) => none
  | (d :: ds, rest) =>
    if d = 0 ∧ ds ≠ [] then none
    else
      let n : Int := Int.ofNat (digitsToNat (d :: ds))
      let v : Value := .num (if sp.1 then -n else n)
      match rest with
      | c :: _ => if c = '.' || c = 'e' || c = 'E' then none else some (v, rest)
      | [] => some (v, [])

/-- The `{...}` member loop: `pv` parses one value (one fuel level down). -/
def parseMembersLoop (pv : List Char → Option (Value × List Char)) :
    Nat → List (String × Value) → List Char →
    Option (List (String × Value) × List Char)
  | 0, _, _ => none
  | g + 1, acc, cs =>
    match skipWs cs with
    | '\x22' :: rest =>
      match parseStrChars (rest.length + 1) rest with
      | none => none
      | some (kcs, r1) =>
        match skipWs r1 with
        | ':' :: r2 =>
          match pv r2 with
          | none => none
          | some (v, r3) =>
            let acc2 := dictSet acc (String.mk kcs) v
            match skipWs r3 with
            | ',' :: r4 => parseMembersLoop pv g acc2 r4
            | '\x7d' :: r4 => some (acc2, r4)
            | _ => none
        | _ => none
    | _ => none

/-- The `[...]` element loop. -/
def parseElemsLoop (pv : List Char → Option (Value × List Char)) :
    Nat → List Value → List Char → Option (List Value × List Char)
  | 0, _, _ => none
  | g + 1, acc, cs =>
    match pv cs with
    | none => none
    | some (v, r1) =>
      match skipWs r1 with
      | ',' :: r2 => parseElemsLoop pv g (acc ++ [v]) r2
      | ']' :: r2 => some (acc ++ [v], r2)
      | _ => none

/-- Parse one JSON value (fuel bounds the nesting depth). -/
def parseVal : Nat → List Char → Option (Value × List Char)
  | 0, _ => none
  | f + 1, cs =>
    match skipWs cs with
    | [] => none
    | c :: rest =>
      if c = '\x7b' then
        match skipWs rest with
        | '\x7d' :: rest2 => some (.dict [], rest2)
        | cs2 => (parseMembersLoop (parseVal f) (cs2.length + 1) [] cs2).map
            (fun p => (.dict p.1, p.2))
      else if c = '[' then
        match skipWs rest with
        | ']' :: rest2 => some (.arr [], rest2)
        | cs2 => (parseElemsLoop (parseVal f) (cs2.length + 1) [] cs2).map
            (fun p => (.arr p.1, p.2))
      else if c = '\x22' then
        (parseStrChars (rest.length + 1) rest).map
          (fun p => (.str (String.mk p.1), p.2))
      else if c = 't' then
        match rest with
        | 'r' :: 'u' :: 'e' :: r => some (.bool true, r)
        | _ => none
      else if c = 'f' then
        match rest with
        | 'a' :: 'l' :: 's' :: 'e' :: r => some (.bool false, r)
        | _ => none
      else if c = 'n' then
        match rest with
        | 'u' :: 'l' :: 'l' :: r => some (.null, r)
        | _ => none
      else parseIntNum (c :: rest)

/-- The model of `json.loads`: parse one value, allow surrounding whitespace,
require the input to be exhausted. -/
def parseJson (s : String) : Option Value :=
  match parseVal (s.length + 1) s.toList with
  | some (v, rest) => if skipWs rest = [] then some v else none
  | none => none

/-- Python `s.replace(old, new)` for single-character patterns (as in the
source's `arguments.replace("'", '"')`). -/
def replaceChar (old new : Char) (s : String) : String :=
  String.mk (s.data.map (fun c => if c = old then new else c))

/-! ## The normalizer on an arbitrary parsed value

`normalize_parameters` is annotated to take a dict but its string branch may
hand it any parsed JSON value; the alias scan (`a in arguments`,
`arguments.get(a)`) and the pass-through loop (`arguments.items()`) then
behave — or raise — according to the value's runtime type. -/

/-- Python `a in x`: dict → key membership, list → element equality,
string → substring; other types raise `TypeError`. -/
def pyInE (a : String) : Value → Except String Bool
  | .dict kvs => .ok (kvs.any (fun kv => kv.1 = a))
  | .arr xs => .ok (xs.contains (.str a))
  | .str s => .ok (strIn a s)
  | .num _ => .error "TypeError: argument of type int is not iterable"
  | .bool _ => .error "TypeError: argument of type bool is not iterable"
  | .null => .error "TypeError: argument of type NoneType is not iterable"

/-- Python `x.get(a)`: only dicts have `.get`. -/
def pyGetE (x : Value) (a : String) : Except String Value :=
  match x with
  | .dict kvs => .ok (dictGetNull kvs a)
  | _ => .error "AttributeError: object has no attribute get"

/-- Python `x.items()`: only dicts have `.items`. -/
def pyItemsE : Value → Except String Dict
  | .dict kvs => .ok kvs
  | _ => .error "AttributeError: object has no attribute items"

/-- The alias scan loop body over an arbitrary value. -/
def firstAliasE (x : Value) : List String → Except String (Option Value)
  | [] => .ok none
  | a :: rest => do
    let m ← pyInE a x
    if m then
      let v ← pyGetE x a
      if usable v then return (some v) else firstAliasE x rest
    else firstAliasE x rest

/-- The alias-resolution loop over an arbitrary value, in table order. -/
def resolveAliasesE (x : Value) : List (String × List String) → Except String Dict
  | [] => .ok []
  | p :: t => do
    let r ← firstAliasE x p.2
    let rest ← resolveAliasesE x t
    match r with
    | some v => .ok ((p.1, v) :: rest)
    | none => .ok rest

/-- The body of `normalize_parameters` on an already-parsed value. -/
def normalizeVal (x : Value) : Except String Dict := do
  let resolved ← resolveAliasesE x aliasTable
  let items ← pyItemsE x
  let pass := items.filter (fun kv => !(allAliases.contains kv.1))
  .ok (coerceHot (resolved ++ pass))

/-- The function `normalize_parameters(arguments)` for a string argument: falsy strings
short-circuit to `{}`, then `json.loads`, then the single-quote fallback, then
`{}`; the body then runs on whatever value was parsed. -/
def normalizeString (s : String) : Except String Dict :=
  if s = "" then .ok []
  else
    let args : Value :=
      match parseJson s with
      | some v => v
      | none =>
        match parseJson (replaceChar '\x27' '\x22' s) with
        | some v => v
        | none => .dict []
    normalizeVal args

/-! ## The Supabase-backed state

Tables are lists of rows; a row couples the datastore-assigned surrogate id
(`rid`, modelling the `id` column), a monotone stamp modelling the
`created_at` ordering, and the column map.  `nextId` models the id generator,
`clock` the wall clock. -/

structure TableRow where
  rid : Nat
  stamp : Nat
  data : Dict
deriving DecidableEq, Inhabited

structure DB where
  calls : List TableRow
  conversation_topics : List (Nat × Value)
  questions_asked : List (Nat × Value)
  hot_leads : List TableRow
  callbacks : List TableRow
  property_requests : List TableRow
  nextId : Nat
  clock : Nat
deriving DecidableEq, Inhabited

/-- Postgrest `.eq(k, v)` on one row. -/
def colEq (k : String) (v : Value) (r : TableRow) : Bool :=
  lookupA r.data k = some v

/-- Postgrest `.select(...).eq(k, v).execute().data`. -/
def findByCol (t : List TableRow) (k : String) (v : Value) : List TableRow :=
  t.filter (colEq k v)

/-- Postgrest `.order("created_at", desc=True).limit(1)`: the row with the greatest
stamp (the first such row on ties). -/
def maxByStamp : List TableRow → Option TableRow
  | [] => none
  | r :: rest =>
    match maxByStamp rest with
    | none => some r
    | some r2 => some (if r2.stamp ≤ r.stamp then r else r2)

/-- Column-update semantics: `upd`'s columns replace, the other columns
persist.  Rows are column maps, so only `lookupA` on the result is
meaningful. -/
def dictMerge (base upd : Dict) : Dict :=
  upd ++ base.filter (fun kv => !(upd.any (fun kv2 => kv2.1 = kv.1)))

/-- Postgrest `.update(d).eq("id", target)`: merge `d` into every row whose id matches;
when `d` carries a `created_at` column the caller passes the fresh stamp. -/
def updateById (t : List TableRow) (target : Nat) (d : Dict) (newStamp : Option Nat) :
    List TableRow :=
  t.map (fun r => if r.rid = target then ⟨r.rid, newStamp.getD r.stamp, dictMerge r.data d⟩
    else r)

/-! ## The collect-caller-info handler (src/main.py lines 393-551) -/

/-- A `{"success": ..., "message": ...}` handler result. -/
def okDict (msg : String) : Dict := [("success", .bool true), ("message", .str msg)]

def failDict (msg : String) : Dict := [("success", .bool false), ("message", .str msg)]

/-- Python `s.strip()`. -/
def pyStrip (s : String) : String :=
  String.mk (((s.data.dropWhile Char.isWhitespace).reverse.dropWhile
    Char.isWhitespace).reverse)

/-- Lines 404-428: the guarded score computation (0 on error), the clamp, the
hot-lead computation, the caller-supplied override, the reason chain and the
three parameter mutations.  Returns the mutated parameters, the hot flag and
the reason value. -/
def collectPrep (arguments : Dict) : Dict × Bool × Value :=
  let parameters := arguments
  let numeric_score0 :=
    match calculate_lead_score parameters with
    | .ok n => n
    | .error _ => 0
  let numeric_score := pyMax 0 (pyMin 100 numeric_score0)
  let ch := is_hot_lead numeric_score (dictGetD parameters "urgency" (.str ""))
    (dictGetD parameters "deal_size" (.str ""))
  let is_hot : Bool :=
    match lookupA parameters "is_hot_lead" with
    | none => ch.1
    | some .null => ch.1
    | some v => v.truthy
  let hot_reason : Value :=
    pyOr (dictGetNull parameters "urgency_reason")
      (pyOr (dictGetNull parameters "hot_lead_reason")
        (pyOr (match ch.2 with | some s => .str s | none => .null) (.str "Not specified")))
  let parameters := dictSet parameters "lead_score" (.num numeric_score)
  let parameters := dictSet parameters "is_hot_lead" (.bool is_hot)
  let parameters := dictSet parameters "hot_lead_reason" hot_reason
  (parameters, is_hot, hot_reason)

/-- Python `(parameters.get("caller_phone") or "").strip()`: raises `AttributeError`
on a truthy non-string value. -/
def collectPhone (parameters : Dict) : Except String String :=
  match pyOr (dictGetNull parameters "caller_phone") (.str "") with
  | .str s => .ok (pyStrip s)
  | _ => .error "AttributeError: object has no attribute strip"

/-- The `call_data` record of lines 437-454. -/
def mkCallData (call_id : String) (parameters : Dict) (is_hot : Bool) (now : Nat)
    (payload : Value) : Dict := [
  ("call_id", .str call_id),
  ("caller_name", dictGetNull parameters "caller_name"),
  ("caller_phone", dictGetNull parameters "caller_phone"),
  ("caller_email", dictGetNull parameters "caller_email"),
  ("caller_role", dictGetNull parameters "caller_role"),
  ("asset_type", dictGetNull parameters "asset_type"),
  ("location", dictGetNull parameters "location"),
  ("deal_size", dictGetNull parameters "deal_size"),
  ("urgency", dictGetNull parameters "urgency"),
  ("is_hot_lead", .bool is_hot),
  ("inquiry_summary", dictGetNull parameters "inquiry_summary"),
  ("additional_notes", dictGetNull parameters "additional_notes"),
  ("lead_score", dictGetD parameters "lead_score" (.num 0)),
  ("hot_lead_reason", dictGetNull parameters "hot_lead_reason"),
  ("created_at", .num now),
  ("raw_vapi_data", payload)]

/-- Python `for x in v`: lists iterate their elements, strings their
characters, dicts their keys; other types raise `TypeError`. -/
def pyIter : Value → Except String (List Value)
  | .arr xs => .ok xs
  | .str s => .ok (s.data.map (fun c => .str (String.mk [c])))
  | .dict kvs => .ok (kvs.map (fun kv => .str kv.1))
  | _ => .error "TypeError: object is not iterable"

/-- Lines 498-505: insert one `conversation_topics` row per incoming topic
(nothing, and no error, for an empty or absent list). -/
def syncTopics (db : DB) (parameters : Dict) (sid : Nat) : DB × Option String :=
  let topics := dictGetD parameters "conversation_topics" (.arr [])
  if topics.truthy then
    match pyIter topics with
    | .ok ts =>
      ({ db with conversation_topics :=
          db.conversation_topics ++ ts.map (fun t => (sid, t)) }, none)
    | .error e => (db, some e)
  else (db, none)

/-- Lines 507-515: same for `questions_asked`. -/
def syncQuestions (db : DB) (parameters : Dict) (sid : Nat) : DB × Option String :=
  let questions := dictGetD parameters "questions_asked" (.arr [])
  if questions.truthy then
    match pyIter questions with
    | .ok qs =>
      ({ db with questions_asked :=
          db.questions_asked ++ qs.map (fun q => (sid, q)) }, none)
    | .error e => (db, some e)
  else (db, none)

/-- Lines 517-543: hot-lead sync — lookup by call id, phone fallback, update
or insert, then patch the call row's hot flag and reason. -/
def hotLeadSync (db : DB) (parameters : Dict) (hot_reason : Value) (phone : String)
    (sid : Nat) : DB :=
  let existing0 := findByCol db.hot_leads "call_id" (.num sid)
  let existing :=
    if existing0 = [] ∧ phone ≠ "" then
      (maxByStamp (findByCol db.hot_leads "caller_phone" (.str phone))).toList
    else existing0
  let hot_lead_data : Dict := [
    ("call_id", .num sid),
    ("caller_name", dictGetNull parameters "caller_name"),
    ("caller_phone", .str phone),
    ("urgency_reason", hot_reason),
    ("deal_value", dictGetNull parameters "deal_size"),
    ("notified_at", .num db.clock)]
  let db1 :=
    match existing with
    | h :: _ => { db with hot_leads := updateById db.hot_leads h.rid hot_lead_data none }
    | [] => { db with
        hot_leads := db.hot_leads ++ [(⟨db.nextId, db.clock, hot_lead_data⟩ : TableRow)],
        nextId := db.nextId + 1 }
  let patch : Dict := [("is_hot_lead", .bool true), ("hot_lead_reason", hot_reason)]
  { db1 with calls := updateById db1.calls sid patch none }

/-- The `if inserted_call_id:` block (lines 497-543): children sync (partial
state is kept when an iteration raises, as the enclosing `try` converts the
error into a failure result), then the hot-lead sync. -/
def collectChildren (db : DB) (parameters : Dict) (is_hot : Bool) (hot_reason : Value)
    (phone : String) (sid : Nat) : Dict × DB :=
  match syncTopics db parameters sid with
  | (db1, some e) => (failDict e, db1)
  | (db1, none) =>
    match syncQuestions db1 parameters sid with
    | (db2, some e) => (failDict e, db2)
    | (db2, none) =>
      let db3 := if is_hot then hotLeadSync db2 parameters hot_reason phone sid else db2
      (okDict "Caller info processed successfully", db3)

/-- The handler `handle_collect_caller_info(call_id, arguments, payload)` with the
datastore configured.  The Google-Sheets logging is an external effect with no
modelled state.  Lookup is by external call id when one is supplied and not
"unknown", else by phone (most recent); found rows are updated in place (and
their child rows deleted), otherwise a row is inserted, synthesizing a fresh
call id when none was usable. -/
def handle_collect_caller_info (db : DB) (call_id : String) (arguments : Dict)
    (payload : Value) : Dict × DB :=
  let prep := collectPrep arguments
  let parameters := prep.1
  let is_hot := prep.2.1
  let hot_reason := prep.2.2
  match collectPhone parameters with
  | .error e => (failDict e, db)
  | .ok phone =>
    let call_data := mkCallData call_id parameters is_hot db.clock payload
    let existing : List TableRow :=
      if call_id ≠ "" ∧ call_id ≠ "unknown" then
        findByCol db.calls "call_id" (.str call_id)
      else (maxByStamp (findByCol db.calls "caller_phone" (.str phone))).toList
    match existing with
    | r :: _ =>
      let db1 := { db with
        calls := updateById db.calls r.rid call_data (some db.clock),
        conversation_topics := db.conversation_topics.filter (fun t => t.1 ≠ r.rid),
        questions_asked := db.questions_asked.filter (fun q => q.1 ≠ r.rid) }
      collectChildren db1 parameters is_hot hot_reason phone r.rid
    | [] =>
      let call_data2 :=
        if call_id = "" ∨ call_id = "unknown" then
          dictSet call_data "call_id" (.str ("uuid4-" ++ toString db.nextId))
        else call_data
      let db1 := { db with
        calls := db.calls ++ [(⟨db.nextId, db.clock, call_data2⟩ : TableRow)],
        nextId := db.nextId + 1 }
      collectChildren db1 parameters is_hot hot_reason phone db.nextId

/-! ## The other three handlers (src/main.py lines 553-695) -/

/-- The `callback_data` record of lines 566-575. -/
def callbackData (dbid : Nat) (parameters : Dict) : Dict := [
  ("call_id", .num dbid),
  ("caller_name", dictGetNull parameters "caller_name"),
  ("callback_phone", dictGetNull parameters "callback_phone"),
  ("preferred_date", dictGetNull parameters "preferred_date"),
  ("preferred_time", dictGetNull parameters "preferred_time"),
  ("timezone", dictGetNull parameters "timezone"),
  ("reason", dictGetNull parameters "reason"),
  ("status", .str "scheduled")]

/-- The handler `handle_callback_request`: id-only lookup, always-insert persistence, and
an unconditional success message echoing the requested date and time. -/
def handle_callback_request (db : DB) (call_id : String) (parameters : Dict) :
    Dict × DB :=
  let msg := "Callback scheduled for " ++ pyStr (dictGetNull parameters "preferred_date")
    ++ " " ++ pyStr (dictGetNull parameters "preferred_time")
  match findByCol db.calls "call_id" (.str call_id) with
  | r :: _ =>
    let callback_data : Dict := callbackData r.rid parameters
    (okDict msg, { db with
      callbacks := db.callbacks ++ [(⟨db.nextId, db.clock, callback_data⟩ : TableRow)],
      nextId := db.nextId + 1 })
  | [] => (okDict msg, db)

/-- The handler `handle_property_request`: same lookup rule; always inserts. -/
def handle_property_request (db : DB) (call_id : String) (parameters : Dict) :
    Dict × DB :=
  let msg := "Property information will be sent to "
    ++ pyStr (dictGetNull parameters "email")
  match findByCol db.calls "call_id" (.str call_id) with
  | r :: _ =>
    let prop_data : Dict := [
      ("call_id", .num r.rid),
      ("email", dictGetNull parameters "email"),
      ("property_type", dictGetNull parameters "property_type"),
      ("location", dictGetNull parameters "location"),
      ("budget_range", dictGetNull parameters "budget_range"),
      ("specific_requirements", dictGetNull parameters "specific_requirements"),
      ("status", .str "pending")]
    (okDict msg, { db with
      property_requests := db.property_requests ++ [(⟨db.nextId, db.clock, prop_data⟩ : TableRow)],
      nextId := db.nextId + 1 })
  | [] => (okDict msg, db)

/-- The handler `handle_hot_lead_flag`: id-only lookup; upserts the hot-lead row keyed by
call id (the update goes through `.eq("call_id", ...)`), then marks the call
row hot. -/
def handle_hot_lead_flag (db : DB) (call_id : String) (parameters : Dict) :
    Dict × DB :=
  let msg := "Lead flagged as urgent and will receive priority attention"
  match findByCol db.calls "call_id" (.str call_id) with
  | r :: _ =>
    let sid := r.rid
    let existing_hot := findByCol db.hot_leads "call_id" (.num sid)
    let hot_lead_data : Dict := [
      ("call_id", .num sid),
      ("caller_name", dictGetNull parameters "caller_name"),
      ("caller_phone", dictGetNull parameters "caller_phone"),
      ("urgency_reason", dictGetNull parameters "urgency_reason"),
      ("deal_value", dictGetNull parameters "deal_value"),
      ("has_competition", dictGetD parameters "competition" (.bool false)),
      ("notified_at", .num db.clock)]
    let db1 :=
      match existing_hot with
      | _ :: _ => { db with hot_leads := db.hot_leads.map (fun h =>
          if colEq "call_id" (.num sid) h then ⟨h.rid, h.stamp, dictMerge h.data hot_lead_data⟩
          else h) }
      | [] => { db with
          hot_leads := db.hot_leads ++ [(⟨db.nextId, db.clock, hot_lead_data⟩ : TableRow)],
          nextId := db.nextId + 1 }
    let patch : Dict := [("is_hot_lead", .bool true),
      ("hot_lead_reason", dictGetNull parameters "urgency_reason")]
    (okDict msg, { db1 with calls := updateById db1.calls sid patch none })
  | [] => (okDict msg, db)

/-! ## Dispatch and the webhook response (src/main.py lines 317-388) -/

def jsonEscapeChar (c : Char) : String :=
  if c = '\x22' then "\\\x22"
  else if c = '\\' then "\\\\"
  else if c = '\n' then "\\n"
  else if c = '\t' then "\\t"
  else if c = '\r' then "\\r"
  else String.mk [c]

def jsonEscape (s : String) : String := String.join (s.data.map jsonEscapeChar)

mutual
/-- Python `json.dumps` (default separators). -/
def jsonDumps : Value → String
  | .null => "null"
  | .bool true => "true"
  | .bool false => "false"
  | .num n => toString n
  | .str s => "\x22" ++ jsonEscape s ++ "\x22"
  | .arr xs => "[" ++ ", ".intercalate (jsonDumpsList xs) ++ "]"
  | .dict kvs => "\x7b" ++ ", ".intercalate (jsonDumpsPairs kvs) ++ "\x7d"

def jsonDumpsList : List Value → List String
  | [] => []
  | v :: vs => jsonDumps v :: jsonDumpsList vs

def jsonDumpsPairs : List (String × Value) → List String
  | [] => []
  | (k, v) :: kvs => ("\x22" ++ jsonEscape k ++ "\x22: " ++ jsonDumps v) :: jsonDumpsPairs kvs
end

/-- Lines 349-364: route the tool name to one of the four handlers, with one
camelCase alias each; an unrecognized name only logs a warning, leaving
`handler_result` as `None`.  (The handlers catch their own errors, so the
dispatcher's `except` branch producing `{"error": str(e)}` is unreachable in
the model.) -/
def recognizedDispatch (db : DB) (call_id : String) (np : Dict) (payload : Value)
    (function_name : String) : Option Dict × DB :=
  if function_name = "collect_caller_information"
      ∨ function_name = "collectCallerInformation" then
    let r := handle_collect_caller_info db call_id np payload
    (some r.1, r.2)
  else if function_name = "schedule_callback" ∨ function_name = "scheduleCallback" then
    let r := handle_callback_request db call_id np
    (some r.1, r.2)
  else if function_name = "request_property_information"
      ∨ function_name = "requestPropertyInformation" then
    let r := handle_property_request db call_id np
    (some r.1, r.2)
  else if function_name = "flag_hot_lead" ∨ function_name = "flagHotLead" then
    let r := handle_hot_lead_flag db call_id np
    (some r.1, r.2)
  else (none, db)

/-- Line 368: `json.dumps(handler_result) if isinstance(handler_result, dict)
else str(handler_result)`. -/
def toolResultText (handler_result : Option Dict) : String :=
  match handler_result with
  | some d => jsonDumps (.dict d)
  | none => pyStr .null

structure ToolCall where
  tcid : Option String
  fname : String
  args : Dict
deriving DecidableEq

inductive WebhookResponse where
  | results (entries : List (Option String × String))
  | plain (status message : String)
deriving DecidableEq

/-- Both response shapes are HTTP 200; only the top-level exception path
(unreachable from tool dispatch) answers with `"status": "error"`. -/
def successShaped : WebhookResponse → Bool
  | .results _ => true
  | .plain status _ => status = "success"

/-- Lines 317-382 for a `tool-calls` message: process each tool call in order,
appending a `{"toolCallId": ..., "result": ...}` entry per call, then answer
with the results list (or a plain success payload when there are none). -/
def vapi_webhook_tool_calls (db : DB) (call_id : String) (payload : Value)
    (tcs : List ToolCall) : WebhookResponse × DB :=
  let step := fun (acc : List (Option String × String) × DB) (tc : ToolCall) =>
    let np := normalize_parameters tc.args
    let r := recognizedDispatch acc.2 call_id np payload tc.fname
    (acc.1 ++ [(tc.tcid, toolResultText r.1)], r.2)
  let fin := tcs.foldl step ([], db)
  (if fin.1 = [] then .plain "success" "Processed successfully" else .results fin.1, fin.2)

/-- The number of persisted CallRecords carrying the given external call id. -/
def countByCallId (db : DB) (cid : String) : Nat :=
  (findByCol db.calls "call_id" (.str cid)).length

/-- Well-formedness: every surrogate id already in the calls table is older
than the id generator's next value. -/
def callsWf (db : DB) : Prop := ∀ row ∈ db.calls, row.rid < db.nextId

/-! ## Bounds of the sub-scores -/

theorem urgencyTable_bounds (s : String) : 0 ≤ urgencyTable s ∧ urgencyTable s ≤ 30 := by
  unfold urgencyTable
  repeat' split
  all_goals omega

theorem roleTable_bounds (s : String) : 0 ≤ roleTable s ∧ roleTable s ≤ 15 := by
  unfold roleTable
  repeat' split
  all_goals omega

theorem sentimentTable_bounds (s : String) :
    0 ≤ sentimentTable s ∧ sentimentTable s ≤ 10 := by
  unfold sentimentTable
  repeat' split
  all_goals omega

theorem hashGet_bounds (v : Value) (table : String → Int) (dflt lo hi : Int) (x : Int)
    (htab : ∀ s, lo ≤ table s ∧ table s ≤ hi) (hdflt : lo ≤ dflt ∧ dflt ≤ hi)
    (h : hashGet v table dflt = .ok x) : lo ≤ x ∧ x ≤ hi := by
  cases v <;> simp [hashGet] at h <;> subst h
  case str s => exact htab s
  all_goals exact hdflt

theorem dealSizeScore_bounds (v : Value) : 0 ≤ dealSizeScore v ∧ dealSizeScore v ≤ 25 := by
  unfold dealSizeScore
  dsimp only
  repeat' split
  all_goals omega

theorem assetScore_bounds (v : Value) : 0 ≤ assetScore v ∧ assetScore v ≤ 10 := by
  unfold assetScore
  repeat' split
  all_goals omega

/-- C3 (counterexample): `calculate_lead_score` does not return a score for
every input mapping — a list-valued `urgency` reaches
`urgency_scores.get(urgency, 0)`, whose unhashable key raises `TypeError`. -/
theorem cex_C3 :
    calculate_lead_score [("urgency", Value.arr [])] =
      Except.error "TypeError: unhashable type: list" := by decide

/-- C3 (amended): whenever the raw score computation succeeds — that is, the
urgency, caller-role and sentiment values are hashable, which excludes only
list- and dict-valued entries — `calculate_lead_score` returns exactly the raw
sum of the five capped sub-scores plus the email bonus, which always lies in
[0, 100]; the final `min(score, 100)` clamp never changes the value.
Determinism is inherent: the embedding is a function of the input mapping. -/
theorem thm_C3 (data : Dict) (t : Int) (h : leadScoreRaw data = .ok t) :
    0 ≤ t ∧ t ≤ 100 ∧ calculate_lead_score data = .ok t := by
  have hcalc : calculate_lead_score data = Except.map (fun x => pyMin x 100) (leadScoreRaw data) := rfl
  rw [h] at hcalc
  unfold leadScoreRaw at h
  cases hu : hashGet (dictGetD data "urgency" (Value.str "")) urgencyTable 0 with
  | error e => simp [hu, Bind.bind, Except.bind] at h
  | ok u =>
  cases hr : hashGet (dictGetD data "caller_role" (Value.str "")) roleTable 0 with
  | error e => simp [hu, hr, Bind.bind, Except.bind] at h
  | ok r =>
  cases hs : hashGet (dictGetD data "sentiment" (Value.str "neutral")) sentimentTable 5 with
  | error e => simp [hu, hr, hs, Bind.bind, Except.bind] at h
  | ok s =>
  simp only [hu, hr, hs, Bind.bind, Except.bind, Pure.pure, Except.pure, Except.ok.injEq] at h
  obtain ⟨hu1, hu2⟩ := hashGet_bounds _ urgencyTable 0 0 30 u urgencyTable_bounds (by omega) hu
  obtain ⟨hr1, hr2⟩ := hashGet_bounds _ roleTable 0 0 15 r roleTable_bounds (by omega) hr
  obtain ⟨hs1, hs2⟩ := hashGet_bounds _ sentimentTable 5 0 10 s sentimentTable_bounds (by omega) hs
  obtain ⟨hd1, hd2⟩ := dealSizeScore_bounds (dictGetD data "deal_size" (Value.str ""))
  obtain ⟨ha1, ha2⟩ := assetScore_bounds (dictGetD data "asset_type" (Value.str ""))
  have hrange : 0 ≤ t ∧ t ≤ 100 := by
    rw [← h]
    by_cases he : (dictGetNull data "caller_email").truthy = true <;>
      simp only [he, if_true, if_false, reduceIte] <;> constructor <;> omega
  refine ⟨hrange.1, hrange.2, ?_⟩
  rw [hcalc]
  simp only [Except.map]
  unfold pyMin
  rw [if_pos hrange.2]

/-- C3 (witness): the amended theorem applied at the empty mapping, whose raw
score is the sentiment default 5. -/
theorem thm_C3_witness :
    0 ≤ (5 : Int) ∧ (5 : Int) ≤ 100 ∧ calculate_lead_score [] = .ok 5 :=
  thm_C3 [] 5 (by decide)

theorem topTierDeal_str (d : String) :
    topTierDeal (.str d) = containsAny (pyLower d) ["10m", "million", "20m", "50m"] := by
  by_cases hd : d = ""
  · subst hd; decide
  · simp [topTierDeal, Value.truthy, pyStr, hd]

/-- C4 (confirmed): `is_hot_lead` yields a reason exactly when the score is at
least 75, the urgency is "immediate", or the deal size contains a top-tier
indicator (case-insensitively); the hot flag is the disjunction of the first
two conditions with "at least two reasons"; and the two concrete example
classifications from the specification hold, with the reason string the
comma-join of the collected reasons. -/
theorem thm_C4 :
    (∀ (score : Int) (u d : String),
      ((is_hot_lead score (.str u) (.str d)).2 ≠ none ↔
        (75 ≤ score ∨ u = "immediate" ∨
          containsAny (pyLower d) ["10m", "million", "20m", "50m"] = true)) ∧
      (is_hot_lead score (.str u) (.str d)).1 =
        (decide (75 ≤ score) || decide (u = "immediate") ||
          decide (2 ≤ ((if 75 ≤ score then 1 else 0) + (if u = "immediate" then 1 else 0) +
            (if containsAny (pyLower d) ["10m", "million", "20m", "50m"] = true then 1 else 0)
              : Nat))))
    ∧ is_hot_lead 80 (.str "immediate") (.str "$1M") =
        (true, some "High lead score (80/100), Immediate timeline")
    ∧ is_hot_lead 10 (.str "just browsing") (.str "") = (false, none) := by
  refine ⟨?_, by decide, by decide⟩
  intro score u d
  have ht := topTierDeal_str d
  by_cases h1 : 75 ≤ score <;> by_cases h2 : u = "immediate" <;>
    by_cases h3 : containsAny (pyLower d) ["10m", "million", "20m", "50m"] = true <;>
      simp [is_hot_lead, h1, h2, h3, ht, Value.str.injEq]

/-- C8 (confirmed): the hot flag computed by `is_hot_lead` coincides, for every
score, urgency and deal size, with the simplified rule
`score ≥ 75 or urgency == "immediate"`: the "at least two reasons" disjunct is
redundant, since any two of the three possible reasons include one of the
first two triggers. -/
theorem thm_C8 (score : Int) (urgency deal_size : Value) :
    (is_hot_lead score urgency deal_size).1 = hotLeadSimplified score urgency := by
  by_cases h1 : 75 ≤ score <;> by_cases h2 : urgency = Value.str "immediate" <;>
    by_cases h3 : topTierDeal deal_size = true <;>
      simp [is_hot_lead, hotLeadSimplified, h1, h2, h3]

/-! ## Lookup lemmas for the normalizer -/

theorem lookupA_append (a b : Dict) (k : String) :
    lookupA (a ++ b) k = (lookupA a k).orElse (fun _ => lookupA b k) := by
  induction a with
  | nil => simp [lookupA]
  | cons kv rest ih =>
    obtain ⟨k0, v0⟩ := kv
    by_cases hk : k0 = k <;> simp [lookupA, hk, ih]

theorem lookupA_eq_none_iff (d : Dict) (k : String) :
    lookupA d k = none ↔ ∀ kv ∈ d, kv.1 ≠ k := by
  induction d with
  | nil => simp [lookupA]
  | cons kv rest ih =>
    obtain ⟨k0, v0⟩ := kv
    by_cases hk : k0 = k <;> simp [lookupA, hk, ih]

theorem hotfixEntry_eq (k0 : String) (v0 : Value) :
    hotfixEntry (k0, v0) = (k0, hotValFix k0 v0) := by
  by_cases h : k0 = "is_hot_lead" <;> simp [hotfixEntry, hotValFix, h]

theorem lookupA_map_hotfix (d : Dict) (k : String) :
    lookupA (d.map hotfixEntry) k = (lookupA d k).map (hotValFix k) := by
  induction d with
  | nil => simp [lookupA]
  | cons kv rest ih =>
    obtain ⟨k0, v0⟩ := kv
    rw [List.map_cons, hotfixEntry_eq]
    by_cases hk : k0 = k
    · subst hk
      simp [lookupA]
    · simp [lookupA, hk, ih]

theorem lookupA_filter_none (d : Dict) (p : String × Value → Bool) (k : String)
    (h : ∀ v : Value, p (k, v) = false) : lookupA (d.filter p) k = none := by
  induction d with
  | nil => simp [lookupA]
  | cons kv rest ih =>
    obtain ⟨k0, v0⟩ := kv
    by_cases hk : k0 = k
    · subst hk
      simp [List.filter, h v0, ih]
    · cases hp : p (k0, v0) <;> simp [List.filter, hp, lookupA, hk, ih]

theorem firstAliasVal_usable (args : Dict) (as : List String) (v : Value)
    (h : firstAliasVal args as = some v) : usable v = true := by
  induction as with
  | nil => simp [firstAliasVal] at h
  | cons a rest ih =>
    cases hl : lookupA args a with
    | none =>
      simp only [firstAliasVal, hl] at h
      exact ih h
    | some w =>
      simp only [firstAliasVal, hl] at h
      by_cases hu : usable w = true
      · rw [if_pos hu] at h
        cases h; exact hu
      · rw [if_neg hu] at h
        exact ih h

theorem firstAliasVal_none (args : Dict) (as : List String)
    (h : ∀ a ∈ as, lookupA args a = none) : firstAliasVal args as = none := by
  induction as with
  | nil => rfl
  | cons a rest ih =>
    unfold firstAliasVal
    rw [h a (by simp)]
    exact ih (fun a ha => h a (by simp [ha]))

theorem lookupA_filterMapTable_none (t : List (String × List String))
    (F : List String → Option Value) (k : String)
    (hk : ∀ p ∈ t, p.1 ≠ k) :
    lookupA (t.filterMap (fun p => (F p.2).map (fun v => (p.1, v)))) k = none := by
  induction t with
  | nil => simp [lookupA]
  | cons q t' ih =>
    have hq : q.1 ≠ k := hk q (by simp)
    cases hF : F q.2 with
    | none =>
      simp only [List.filterMap_cons, hF, Option.map_none']
      exact ih (fun p hp => hk p (by simp [hp]))
    | some v =>
      simp only [List.filterMap_cons, hF, Option.map_some']
      simp only [lookupA, if_neg hq]
      exact ih (fun p hp => hk p (by simp [hp]))

theorem lookupA_filterMapTable (t : List (String × List String))
    (F : List String → Option Value) (k : String) (as : List String)
    (hnd : (t.map Prod.fst).Nodup) (hmem : (k, as) ∈ t) :
    lookupA (t.filterMap (fun p => (F p.2).map (fun v => (p.1, v)))) k = F as := by
  induction t with
  | nil => simp at hmem
  | cons q t' ih =>
    rw [List.map_cons, List.nodup_cons] at hnd
    rcases List.mem_cons.mp hmem with hq | ht'
    · subst hq
      cases hF : F as with
      | none =>
        simp only [List.filterMap_cons, hF, Option.map_none']
        refine lookupA_filterMapTable_none t' F k (fun p hp hpk => hnd.1 ?_)
        exact List.mem_map.mpr ⟨p, hp, hpk⟩
      | some v =>
        simp only [List.filterMap_cons, hF, Option.map_some']
        simp [lookupA]
    · have hkmem : k ∈ t'.map Prod.fst := List.mem_map_of_mem Prod.fst ht'
      have hq : q.1 ≠ k := fun hqe => hnd.1 (by rw [hqe]; exact hkmem)
      cases hF : F q.2 with
      | none =>
        simp only [List.filterMap_cons, hF, Option.map_none']
        exact ih hnd.2 ht'
      | some v =>
        simp only [List.filterMap_cons, hF, Option.map_some', lookupA, if_neg hq]
        exact ih hnd.2 ht'

theorem lookupA_coerceHot (c : Dict) :
    lookupA (coerceHot c) "is_hot_lead" = (lookupA c "is_hot_lead").map coerceVal := by
  unfold coerceHot
  cases hl : lookupA c "is_hot_lead" with
  | none => simp [hl]
  | some v => simp [hl, lookupA_map_hotfix, hotValFix]

theorem resolveAliases_hot (args : Dict) :
    lookupA (resolveAliases args) "is_hot_lead" =
      firstAliasVal args ["is_hot_lead", "is_hot", "hot", "hot_lead"] :=
  lookupA_filterMapTable aliasTable (firstAliasVal args) "is_hot_lead"
    ["is_hot_lead", "is_hot", "hot", "hot_lead"] (by decide) (by decide)

theorem passThrough_hot (args : Dict) :
    lookupA (passThrough args) "is_hot_lead" = none :=
  lookupA_filter_none args _ "is_hot_lead"
    (fun _ => by show (!allAliases.contains "is_hot_lead") = false; decide)

/-- The normalizer's `is_hot_lead` output is the coercion of the value found by
the alias scan. -/
theorem norm_hot_lookup (args : Dict) :
    lookupA (normalize_parameters args) "is_hot_lead" =
      (firstAliasVal args ["is_hot_lead", "is_hot", "hot", "hot_lead"]).map coerceVal := by
  unfold normalize_parameters
  by_cases ha : args = []
  · subst ha; rfl
  · rw [if_neg ha, lookupA_coerceHot, lookupA_append, resolveAliases_hot]
    cases hf : firstAliasVal args ["is_hot_lead", "is_hot", "hot", "hot_lead"] with
    | some v => rfl
    | none => simp [passThrough_hot]

/-- C5 (confirmed): the Jane example normalizes to exactly the canonical
mapping from the specification, and in general a present `is_hot_lead` value
is coerced: a string becomes true exactly for "1"/"true"/"yes"
case-insensitively, a non-string through Python truthiness. -/
theorem thm_C5 :
    (normalize_parameters
        [("name", .str "Jane"), ("phone", .str "555-1234"), ("hot", .str "YES")] =
      [("caller_name", .str "Jane"), ("caller_phone", .str "555-1234"),
        ("is_hot_lead", .bool true)])
    ∧ (∀ (args : Dict) (s : String),
        firstAliasVal args ["is_hot_lead", "is_hot", "hot", "hot_lead"] = some (.str s) →
        lookupA (normalize_parameters args) "is_hot_lead" =
          some (.bool (pyLower s = "1" || pyLower s = "true" || pyLower s = "yes")))
    ∧ (∀ (args : Dict) (w : Value),
        (∀ s : String, w ≠ .str s) →
        firstAliasVal args ["is_hot_lead", "is_hot", "hot", "hot_lead"] = some w →
        lookupA (normalize_parameters args) "is_hot_lead" = some (.bool w.truthy)) := by
  refine ⟨by decide, ?_, ?_⟩
  · intro args s hf
    rw [norm_hot_lookup, hf]
    rfl
  · intro args w hw hf
    rw [norm_hot_lookup, hf]
    cases w with
    | str s => exact absurd rfl (hw s)
    | null => rfl
    | bool b => rfl
    | num n => rfl
    | arr xs => rfl
    | dict kvs => rfl

/-- C5 (witness): the coercion conjuncts applied at a string-valued and a
numeric-valued `hot` alias. -/
theorem thm_C5_witness :
    (lookupA (normalize_parameters [("hot", Value.str "YES")]) "is_hot_lead" =
      some (.bool (pyLower "YES" = "1" || pyLower "YES" = "true" || pyLower "YES" = "yes")))
    ∧ lookupA (normalize_parameters [("hot", Value.num 7)]) "is_hot_lead" =
        some (.bool (Value.num 7).truthy) :=
  ⟨thm_C5.2.1 [("hot", Value.str "YES")] "YES" (by decide),
   thm_C5.2.2 [("hot", Value.num 7)] (Value.num 7) (fun s h => Value.noConfusion h)
     (by decide)⟩

/-! ## Idempotence of the normalizer -/

theorem aliasTable_keys_nodup : (aliasTable.map Prod.fst).Nodup := by decide

theorem aliasTable_wf :
    ∀ p ∈ aliasTable, p.2.head? = some p.1 ∧
      ∀ a ∈ p.2.tail, ((aliasTable.map Prod.fst).contains a) = false := by decide

theorem alias_mem_allAliases :
    ∀ p ∈ aliasTable, ∀ a ∈ p.2, allAliases.contains a = true := by decide

theorem canonical_mem_allAliases :
    ∀ k ∈ aliasTable.map Prod.fst, allAliases.contains k = true := by decide

theorem resolveAliases_keys (args : Dict) :
    ∀ kv ∈ resolveAliases args, kv.1 ∈ aliasTable.map Prod.fst := by
  intro kv hkv
  obtain ⟨p, hp, hf⟩ := List.mem_filterMap.mp hkv
  cases hF : firstAliasVal args p.2 with
  | none => rw [hF] at hf; simp at hf
  | some v =>
    rw [hF] at hf
    simp only [Option.map_some', Option.some.injEq] at hf
    rw [← hf]
    exact List.mem_map_of_mem Prod.fst hp

theorem passThrough_keys (args : Dict) :
    ∀ kv ∈ passThrough args, allAliases.contains kv.1 = false := by
  intro kv hkv
  have := (List.mem_filter.mp hkv).2
  simpa using this

theorem passThrough_map_hotfix (args : Dict) :
    (passThrough args).map hotfixEntry = passThrough args := by
  have h : ∀ kv ∈ passThrough args, hotfixEntry kv = kv := by
    intro kv hkv
    have hk := passThrough_keys args kv hkv
    have hne : kv.1 ≠ "is_hot_lead" := by
      intro he
      rw [he] at hk
      exact absurd hk (by decide)
    unfold hotfixEntry
    rw [if_neg hne]
  calc (passThrough args).map hotfixEntry
      = (passThrough args).map id := List.map_congr_left h
    _ = passThrough args := List.map_id _

theorem map_hotfix_of_no_hot (d : Dict) (h : ∀ kv ∈ d, kv.1 ≠ "is_hot_lead") :
    d.map hotfixEntry = d := by
  have h' : ∀ kv ∈ d, hotfixEntry kv = kv := by
    intro kv hkv
    unfold hotfixEntry
    rw [if_neg (h kv hkv)]
  calc d.map hotfixEntry = d.map id := List.map_congr_left h'
    _ = d := List.map_id _

theorem coerceVal_isBool (v : Value) : ∃ b, coerceVal v = .bool b := by
  cases v <;> simp [coerceVal]

theorem coerceVal_coerceVal (v : Value) : coerceVal (coerceVal v) = coerceVal v := by
  obtain ⟨b, hb⟩ := coerceVal_isBool v
  rw [hb]
  cases b <;> rfl

theorem hotValFix_idem (k : String) (v : Value) :
    hotValFix k (hotValFix k v) = hotValFix k v := by
  unfold hotValFix
  by_cases h : k = "is_hot_lead"
  · rw [if_pos h, if_pos h, coerceVal_coerceVal]
  · rw [if_neg h, if_neg h]

theorem hotfixEntry_idem (kv : String × Value) :
    hotfixEntry (hotfixEntry kv) = hotfixEntry kv := by
  obtain ⟨k, v⟩ := kv
  rw [hotfixEntry_eq, hotfixEntry_eq, hotValFix_idem]

theorem usable_hotValFix (k : String) (v : Value) (h : usable v = true) :
    usable (hotValFix k v) = true := by
  unfold hotValFix
  by_cases hk : k = "is_hot_lead"
  · rw [if_pos hk]
    obtain ⟨b, hb⟩ := coerceVal_isBool v
    rw [hb]
    cases b <;> decide
  · rw [if_neg hk]; exact h

/-- Shape of a non-empty normalization: coerced resolved entries followed by
the untouched pass-through entries. -/
theorem normalize_shape (x : Dict) (hx : x ≠ []) :
    normalize_parameters x = (resolveAliases x).map hotfixEntry ++ passThrough x := by
  unfold normalize_parameters
  rw [if_neg hx]
  unfold coerceHot
  cases hl : lookupA (resolveAliases x ++ passThrough x) "is_hot_lead" with
  | some v =>
    simp only [hl, Option.isSome_some, if_true]
    rw [List.map_append, passThrough_map_hotfix]
  | none =>
    simp only [hl, Option.isSome_none, Bool.false_eq_true, if_false]
    have hres : lookupA (resolveAliases x) "is_hot_lead" = none := by
      rw [lookupA_append] at hl
      cases hr : lookupA (resolveAliases x) "is_hot_lead" with
      | none => rfl
      | some v => rw [hr] at hl; simp at hl
    have hnohot : ∀ kv ∈ resolveAliases x, kv.1 ≠ "is_hot_lead" :=
      (lookupA_eq_none_iff _ _).mp hres
    rw [map_hotfix_of_no_hot _ hnohot]

theorem lookupA_RP_alias (x : Dict) (a : String)
    (hcanon : ((aliasTable.map Prod.fst).contains a) = false)
    (halias : allAliases.contains a = true) :
    lookupA ((resolveAliases x).map hotfixEntry ++ passThrough x) a = none := by
  rw [lookupA_append, lookupA_map_hotfix]
  have hres : lookupA (resolveAliases x) a = none := by
    rw [lookupA_eq_none_iff]
    intro kv hkv hk
    have hm := resolveAliases_keys x kv hkv
    rw [hk] at hm
    have hnm : a ∉ aliasTable.map Prod.fst := by simpa using hcanon
    exact hnm hm
  have hpass : lookupA (passThrough x) a = none := by
    rw [lookupA_eq_none_iff]
    intro kv hkv hk
    have := passThrough_keys x kv hkv
    rw [hk, halias] at this
    exact Bool.noConfusion this
  rw [hres, hpass]
  rfl

theorem lookupA_RP_canonical (x : Dict) (k : String) (as : List String)
    (hmem : (k, as) ∈ aliasTable) :
    lookupA ((resolveAliases x).map hotfixEntry ++ passThrough x) k =
      (firstAliasVal x as).map (hotValFix k) := by
  rw [lookupA_append, lookupA_map_hotfix]
  have hres : lookupA (resolveAliases x) k = firstAliasVal x as :=
    lookupA_filterMapTable aliasTable (firstAliasVal x) k as aliasTable_keys_nodup hmem
  have hpass : lookupA (passThrough x) k = none := by
    rw [lookupA_eq_none_iff]
    intro kv hkv hk
    have hc := passThrough_keys x kv hkv
    have hka : allAliases.contains k = true :=
      canonical_mem_allAliases k (List.mem_map_of_mem Prod.fst hmem)
    rw [hk, hka] at hc
    exact Bool.noConfusion hc
  rw [hres, hpass]
  cases firstAliasVal x as <;> rfl

theorem resolveAliases_RP (x : Dict) :
    resolveAliases ((resolveAliases x).map hotfixEntry ++ passThrough x) =
      (resolveAliases x).map hotfixEntry := by
  set y := (resolveAliases x).map hotfixEntry ++ passThrough x with hy
  have hRHS : (resolveAliases x).map hotfixEntry =
      aliasTable.filterMap
        (fun p => ((firstAliasVal x p.2).map (fun v => (p.1, v))).map hotfixEntry) := by
    unfold resolveAliases
    rw [List.map_filterMap]
  rw [hRHS]
  unfold resolveAliases
  refine List.filterMap_congr ?_
  intro p hp
  rcases p with ⟨k, as⟩
  obtain ⟨hhead, htail⟩ := aliasTable_wf (k, as) hp
  cases as with
  | nil => simp at hhead
  | cons a tail =>
    simp only [List.head?_cons, Option.some.injEq] at hhead
    simp only [List.tail_cons] at htail
    rw [hhead] at hp ⊢
    cases hf : firstAliasVal x (k :: tail) with
    | some v =>
      have husable := firstAliasVal_usable x (k :: tail) v hf
      have hlk := lookupA_RP_canonical x k (k :: tail) hp
      rw [hf] at hlk
      simp only [Option.map_some'] at hlk
      rw [← hy] at hlk
      have hfy : firstAliasVal y (k :: tail) = some (hotValFix k v) := by
        simp [firstAliasVal, hlk, usable_hotValFix k v husable]
      rw [hfy]
      simp only [Option.map_some', hotfixEntry_eq]
    | none =>
      have hlk := lookupA_RP_canonical x k (k :: tail) hp
      rw [hf] at hlk
      simp only [Option.map_none'] at hlk
      rw [← hy] at hlk
      have hfy : firstAliasVal y (k :: tail) = none := by
        refine firstAliasVal_none _ _ ?_
        intro b hb
        rcases List.mem_cons.mp hb with h | h
        · rw [h]; exact hlk
        · have hz := lookupA_RP_alias x b (htail b h)
            (alias_mem_allAliases (k, k :: tail) hp b (by simp [h]))
          rw [← hy] at hz
          exact hz
      rw [hfy]
      rfl

theorem passThrough_RP (x : Dict) :
    passThrough ((resolveAliases x).map hotfixEntry ++ passThrough x) =
      passThrough x := by
  unfold passThrough
  rw [List.filter_append]
  have h1 : ((resolveAliases x).map hotfixEntry).filter
      (fun kv => !(allAliases.contains kv.1)) = [] := by
    rw [List.filter_eq_nil_iff]
    intro kv hkv
    obtain ⟨kv0, hkv0, hfe⟩ := List.mem_map.mp hkv
    have hk0 := resolveAliases_keys x kv0 hkv0
    have hkeq : kv.1 = kv0.1 := by
      rw [← hfe]
      obtain ⟨k0, v0⟩ := kv0
      rw [hotfixEntry_eq]
    rw [hkeq]
    have hmem := canonical_mem_allAliases kv0.1 hk0
    simp at hmem ⊢
    exact hmem
  have h2 : (x.filter (fun kv => !(allAliases.contains kv.1))).filter
      (fun kv => !(allAliases.contains kv.1)) =
      x.filter (fun kv => !(allAliases.contains kv.1)) := by
    rw [List.filter_filter]
    refine List.filter_congr ?_
    intro kv _
    rw [Bool.and_self]
  rw [h1, h2]
  rfl

theorem coerceHot_RP (x : Dict) :
    coerceHot ((resolveAliases x).map hotfixEntry ++ passThrough x) =
      (resolveAliases x).map hotfixEntry ++ passThrough x := by
  unfold coerceHot
  split
  · rw [List.map_append, passThrough_map_hotfix, List.map_map]
    have : hotfixEntry ∘ hotfixEntry = hotfixEntry := funext hotfixEntry_idem
    rw [this]
  · rfl

/-- C10 (confirmed): `normalize_parameters` is idempotent on dict inputs. -/
theorem thm_C10 (x : Dict) :
    normalize_parameters (normalize_parameters x) = normalize_parameters x := by
  by_cases hx : x = []
  · subst hx; rfl
  · rw [normalize_shape x hx]
    by_cases hy : (resolveAliases x).map hotfixEntry ++ passThrough x = []
    · rw [hy]; rfl
    · unfold normalize_parameters
      rw [if_neg hy, resolveAliases_RP, passThrough_RP, coerceHot_RP]

/-! ## The string branch agrees with the dict branch on parsed objects -/

theorem any_key_eq_isSome (kvs : Dict) (a : String) :
    kvs.any (fun kv => kv.1 = a) = (lookupA kvs a).isSome := by
  induction kvs with
  | nil => rfl
  | cons kv rest ih =>
    obtain ⟨k0, v0⟩ := kv
    by_cases hk : k0 = a <;> simp [lookupA, hk, ih]

theorem firstAliasE_dict (kvs : Dict) (as : List String) :
    firstAliasE (.dict kvs) as = .ok (firstAliasVal kvs as) := by
  induction as with
  | nil => rfl
  | cons a rest ih =>
    simp only [firstAliasE, pyInE, Bind.bind, Except.bind, any_key_eq_isSome]
    cases hl : lookupA kvs a with
    | none =>
      simp only [Option.isSome_none, Bool.false_eq_true, if_false]
      rw [ih]
      simp only [firstAliasVal, hl]
    | some v =>
      simp only [Option.isSome_some, if_true, pyGetE]
      have hget : dictGetNull kvs a = v := by
        unfold dictGetNull
        rw [hl]
        rfl
      rw [hget]
      simp only [firstAliasVal, hl]
      by_cases hu : usable v = true
      · rw [if_pos hu, if_pos hu]
        rfl
      · rw [if_neg hu, if_neg hu]
        exact ih

theorem resolveAliasesE_dict (kvs : Dict) (t : List (String × List String)) :
    resolveAliasesE (.dict kvs) t =
      .ok (t.filterMap (fun p => (firstAliasVal kvs p.2).map (fun v => (p.1, v)))) := by
  induction t with
  | nil => rfl
  | cons p t' ih =>
    simp only [resolveAliasesE, firstAliasE_dict, Bind.bind, Except.bind, ih,
      List.filterMap_cons]
    cases firstAliasVal kvs p.2 <;> rfl

theorem normalizeVal_dict (kvs : Dict) :
    normalizeVal (.dict kvs) = .ok (normalize_parameters kvs) := by
  unfold normalizeVal
  rw [resolveAliasesE_dict]
  simp only [Bind.bind, Except.bind, pyItemsE]
  by_cases hk : kvs = []
  · subst hk; rfl
  · unfold normalize_parameters
    rw [if_neg hk]
    rfl

/-- C6 (counterexample): the normalizer can raise on a string input — `"42"`
parses to the integer 42, and the alias scan's `a in arguments` then raises
`TypeError`; the claim that it never raises on any string input is false. -/
theorem cex_C6 :
    normalizeString "42" = .error "TypeError: argument of type int is not iterable" := by
  decide

/-- C6 (amended): a string parsing to a JSON object, directly or after the
single-quote fallback, normalizes to the same canonical mapping as the native
mapping; a string unparseable under both attempts yields the empty canonical
mapping; but a string parsing to a non-object JSON value raises instead of
returning. -/
theorem thm_C6 :
    (∀ (s : String) (kvs : Dict), parseJson s = some (.dict kvs) →
      normalizeString s = .ok (normalize_parameters kvs))
    ∧ (∀ (s : String) (kvs : Dict), parseJson s = none →
        parseJson (replaceChar '\x27' '\x22' s) = some (.dict kvs) →
        normalizeString s = .ok (normalize_parameters kvs))
    ∧ (∀ s : String, parseJson s = none →
        parseJson (replaceChar '\x27' '\x22' s) = none →
        normalizeString s = .ok []) := by
  refine ⟨?_, ?_, ?_⟩
  · intro s kvs hp
    by_cases hs : s = ""
    · rw [hs] at hp
      rw [show parseJson "" = none from by decide] at hp
      exact Option.noConfusion hp
    · unfold normalizeString
      rw [if_neg hs, hp]
      exact normalizeVal_dict kvs
  · intro s kvs hp hp2
    by_cases hs : s = ""
    · rw [hs] at hp2
      rw [show parseJson (replaceChar '\x27' '\x22' "") = none from by decide] at hp2
      exact Option.noConfusion hp2
    · unfold normalizeString
      rw [if_neg hs, hp, hp2]
      exact normalizeVal_dict kvs
  · intro s hp hp2
    by_cases hs : s = ""
    · rw [hs]; rfl
    · unfold normalizeString
      rw [if_neg hs, hp, hp2]
      rfl

/-- C6 (witness): the three amended conjuncts applied at a JSON object, its
single-quoted variant, and an unparseable string. -/
theorem thm_C6_witness :
    (normalizeString "\x7b\"name\": \"Jane\"\x7d" =
      .ok (normalize_parameters [("name", .str "Jane")]))
    ∧ (normalizeString "\x7b\x27name\x27: \x27Jane\x27\x7d" =
        .ok (normalize_parameters [("name", .str "Jane")]))
    ∧ normalizeString "realflow" = .ok [] :=
  ⟨thm_C6.1 "\x7b\"name\": \"Jane\"\x7d" [("name", .str "Jane")] (by decide),
   thm_C6.2.1 "\x7b\x27name\x27: \x27Jane\x27\x7d" [("name", .str "Jane")]
     (by decide) (by decide),
   thm_C6.2.2 "realflow" (by decide) (by decide)⟩

/-! ## The dispatcher on unknown tool names -/

/-- C2 (counterexample): an unknown tool name does not produce the structured
`{"error": "Unknown function: <name>"}` result — the `else` branch only logs,
leaving `handler_result` as `None`, and the results entry is the string
"None". -/
theorem cex_C2 :
    recognizedDispatch ⟨[], [], [], [], [], [], 0, 0⟩ "cid" [] Value.null "bogus" =
      (none, ⟨[], [], [], [], [], [], 0, 0⟩)
    ∧ toolResultText
        (recognizedDispatch ⟨[], [], [], [], [], [], 0, 0⟩ "cid" [] Value.null "bogus").1
      = "None" := by
  exact ⟨by decide, rfl⟩

/-- C2 (amended): for every tool call whose name matches none of the four
recognized tools and their camelCase aliases, the dispatcher leaves the
handler result as `None` — stringified to "None" in the results entry, not a
structured error dict — without raising and without touching the state, and
the overall webhook response is still success-shaped. -/
theorem thm_C2 (db : DB) (call_id : String) (np : Dict) (payload : Value)
    (fname : String) (tcid : Option String) (args : Dict)
    (h : fname ∉ ["collect_caller_information", "collectCallerInformation",
      "schedule_callback", "scheduleCallback", "request_property_information",
      "requestPropertyInformation", "flag_hot_lead", "flagHotLead"]) :
    recognizedDispatch db call_id np payload fname = (none, db)
    ∧ toolResultText (recognizedDispatch db call_id np payload fname).1 = "None"
    ∧ vapi_webhook_tool_calls db call_id payload [⟨tcid, fname, args⟩] =
        (.results [(tcid, "None")], db)
    ∧ successShaped
        (vapi_webhook_tool_calls db call_id payload [⟨tcid, fname, args⟩]).1 = true := by
  simp only [List.mem_cons, List.not_mem_nil, or_false, not_or] at h
  obtain ⟨h1, h2, h3, h4, h5, h6, h7, h8⟩ := h
  have hd : ∀ (np2 : Dict) (db2 : DB),
      recognizedDispatch db2 call_id np2 payload fname = (none, db2) := by
    intro np2 db2
    unfold recognizedDispatch
    rw [if_neg (not_or.mpr ⟨h1, h2⟩), if_neg (not_or.mpr ⟨h3, h4⟩),
      if_neg (not_or.mpr ⟨h5, h6⟩), if_neg (not_or.mpr ⟨h7, h8⟩)]
  have hweb : vapi_webhook_tool_calls db call_id payload [⟨tcid, fname, args⟩] =
      (.results [(tcid, "None")], db) := by
    unfold vapi_webhook_tool_calls
    simp only [List.foldl_cons, List.foldl_nil, hd]
    rfl
  refine ⟨hd np db, ?_, hweb, ?_⟩
  · rw [hd np db]
    rfl
  · rw [hweb]
    rfl


/-- C2 (witness): the amended theorem at the unknown name "bogus". -/
theorem thm_C2_witness :
    recognizedDispatch ⟨[], [], [], [], [], [], 0, 1⟩ "cid" [] Value.null "bogus" =
      (none, ⟨[], [], [], [], [], [], 0, 1⟩)
    ∧ toolResultText
        (recognizedDispatch ⟨[], [], [], [], [], [], 0, 1⟩ "cid" [] Value.null "bogus").1
      = "None"
    ∧ vapi_webhook_tool_calls ⟨[], [], [], [], [], [], 0, 1⟩ "cid" Value.null
        [⟨some "t1", "bogus", []⟩] =
        (.results [(some "t1", "None")], ⟨[], [], [], [], [], [], 0, 1⟩)
    ∧ successShaped
        (vapi_webhook_tool_calls ⟨[], [], [], [], [], [], 0, 1⟩ "cid" Value.null
          [⟨some "t1", "bogus", []⟩]).1 = true :=
  thm_C2 ⟨[], [], [], [], [], [], 0, 1⟩ "cid" [] Value.null "bogus" (some "t1") []
    (by decide)

/-! ## The callback handler -/

/-- C7 (confirmed): `schedule_callback` looks up by external call id only — on
a miss, whatever phone numbers the tables hold, nothing is persisted yet the
result is a success whose message echoes the requested date and time; on a hit
it always inserts: two invocations for the same (found) call id append two new
rows with distinct fresh ids, and never update the call table or the
previously stored callbacks. -/
theorem thm_C7 :
    (∀ (db : DB) (cid : String) (p : Dict),
      findByCol db.calls "call_id" (.str cid) = [] →
      handle_callback_request db cid p =
        (okDict ("Callback scheduled for " ++ pyStr (dictGetNull p "preferred_date")
          ++ " " ++ pyStr (dictGetNull p "preferred_time")), db))
    ∧ (∀ (db : DB) (cid : String) (p1 p2 : Dict) (r : TableRow) (rs : List TableRow),
        findByCol db.calls "call_id" (.str cid) = r :: rs →
        (handle_callback_request (handle_callback_request db cid p1).2 cid p2).2.callbacks.length
            = db.callbacks.length + 2
        ∧ (handle_callback_request (handle_callback_request db cid p1).2 cid p2).2.callbacks.take
            db.callbacks.length = db.callbacks
        ∧ ((handle_callback_request (handle_callback_request db cid p1).2 cid p2).2.callbacks.drop
            db.callbacks.length).map (fun row => row.rid) = [db.nextId, db.nextId + 1]
        ∧ db.nextId ≠ db.nextId + 1
        ∧ (handle_callback_request (handle_callback_request db cid p1).2 cid p2).2.calls = db.calls
        ∧ lookupA (handle_callback_request db cid p1).1 "success" = some (.bool true)
        ∧ lookupA (handle_callback_request (handle_callback_request db cid p1).2 cid p2).1
            "success" = some (.bool true)) := by
  constructor
  · intro db cid p hmiss
    unfold handle_callback_request
    rw [hmiss]
  · intro db cid p1 p2 r rs hfind
    have h1 : handle_callback_request db cid p1 =
        (okDict ("Callback scheduled for " ++ pyStr (dictGetNull p1 "preferred_date")
          ++ " " ++ pyStr (dictGetNull p1 "preferred_time")),
         { db with
            callbacks := db.callbacks ++ [(⟨db.nextId, db.clock, callbackData r.rid p1⟩ : TableRow)],
            nextId := db.nextId + 1 }) := by
      unfold handle_callback_request
      rw [hfind]
    have h2 : handle_callback_request (handle_callback_request db cid p1).2 cid p2 =
        (okDict ("Callback scheduled for " ++ pyStr (dictGetNull p2 "preferred_date")
          ++ " " ++ pyStr (dictGetNull p2 "preferred_time")),
         { db with
            callbacks := db.callbacks ++
              [(⟨db.nextId, db.clock, callbackData r.rid p1⟩ : TableRow),
               (⟨db.nextId + 1, db.clock, callbackData r.rid p2⟩ : TableRow)],
            nextId := db.nextId + 1 + 1 }) := by
      rw [h1]
      unfold handle_callback_request
      rw [hfind]
      simp [List.append_assoc]
    rw [h2, h1]
    refine ⟨?_, ?_, ?_, by omega, rfl, rfl, rfl⟩
    · simp
    · simp [List.take_left]
    · simp [List.drop_left]

/-- C7 (witness): the miss branch on an empty datastore, and the double-insert
branch on a store holding the referenced call. -/
theorem thm_C7_witness :
    (handle_callback_request ⟨[], [], [], [], [], [], 0, 0⟩ "c1" [] =
      (okDict "Callback scheduled for None None", ⟨[], [], [], [], [], [], 0, 0⟩))
    ∧ (handle_callback_request
        (handle_callback_request
          ⟨[⟨5, 0, [("call_id", Value.str "c1")]⟩], [], [], [], [], [], 6, 0⟩
          "c1" []).2 "c1" []).2.callbacks.length = 2 := by
  constructor
  · exact thm_C7.1 ⟨[], [], [], [], [], [], 0, 0⟩ "c1" [] rfl
  · have h := (thm_C7.2 ⟨[⟨5, 0, [("call_id", Value.str "c1")]⟩], [], [], [], [], [], 6, 0⟩
      "c1" [] [] ⟨5, 0, [("call_id", Value.str "c1")]⟩ [] (by decide)).1
    simpa using h

/-! ## Frame lemmas for the collect handler -/

theorem lookupA_filter_keep (b : Dict) (p : String × Value → Bool) (k : String)
    (hk : ∀ v : Value, p (k, v) = true) :
    lookupA (b.filter p) k = lookupA b k := by
  induction b with
  | nil => rfl
  | cons kv rest ih =>
    obtain ⟨k0, v0⟩ := kv
    by_cases hk0 : k0 = k
    · subst hk0
      simp [List.filter, hk v0, lookupA]
    · cases hp : p (k0, v0) <;> simp [List.filter, hp, lookupA, hk0, ih]

theorem lookupA_dictMerge (b u : Dict) (k : String) :
    lookupA (dictMerge b u) k = (lookupA u k).orElse (fun _ => lookupA b k) := by
  unfold dictMerge
  rw [lookupA_append]
  cases hu : lookupA u k with
  | some v => rfl
  | none =>
    have hfalse : u.any (fun kv2 => kv2.1 = k) = false := by
      rw [any_key_eq_isSome, hu]
      rfl
    have hkeep : ∀ v : Value,
        (fun (kv : String × Value) => !(u.any (fun kv2 => kv2.1 = kv.1))) (k, v) = true := by
      intro v
      show (!(u.any (fun kv2 => kv2.1 = k))) = true
      rw [hfalse]
      rfl
    rw [lookupA_filter_keep b _ k hkeep]

theorem updateById_mem_lookup (t : List TableRow) (target : Nat) (d : Dict)
    (ns : Option Nat) (k : String) (v : Value) (hd : lookupA d k = some v) :
    ∀ row ∈ updateById t target d ns, row.rid = target →
      lookupA row.data k = some v := by
  intro row hrow hrid
  obtain ⟨row0, hrow0, heq⟩ := List.mem_map.mp hrow
  by_cases ht : row0.rid = target
  · rw [if_pos ht] at heq
    rw [← heq]
    show lookupA (dictMerge row0.data d) k = some v
    rw [lookupA_dictMerge, hd]
    rfl
  · rw [if_neg ht] at heq
    rw [← heq] at hrid
    exact absurd hrid ht

theorem syncTopics_calls (db : DB) (p : Dict) (sid : Nat) :
    ((syncTopics db p sid).1).calls = db.calls := by
  unfold syncTopics
  dsimp only
  repeat' split
  all_goals rfl

theorem syncQuestions_calls (db : DB) (p : Dict) (sid : Nat) :
    ((syncQuestions db p sid).1).calls = db.calls := by
  unfold syncQuestions
  dsimp only
  repeat' split
  all_goals rfl

theorem hotLeadSync_calls (db : DB) (p : Dict) (hr : Value) (ph : String) (sid : Nat) :
    (hotLeadSync db p hr ph sid).calls =
      updateById db.calls sid [("is_hot_lead", .bool true), ("hot_lead_reason", hr)]
        none := by
  unfold hotLeadSync
  dsimp only
  repeat' split
  all_goals rfl

theorem collectChildren_calls_shape (db : DB) (p : Dict) (ih : Bool) (hr : Value)
    (ph : String) (sid : Nat) :
    ((collectChildren db p ih hr ph sid).2).calls = db.calls ∨
    ((collectChildren db p ih hr ph sid).2).calls =
      updateById db.calls sid [("is_hot_lead", .bool true), ("hot_lead_reason", hr)]
        none := by
  unfold collectChildren
  cases hst : syncTopics db p sid with
  | mk db1 e1 =>
    have hc1 : db1.calls = db.calls := by
      have h := syncTopics_calls db p sid
      rw [hst] at h
      exact h
    cases e1 with
    | some e =>
      left
      simpa using hc1
    | none =>
      cases hsq : syncQuestions db1 p sid with
      | mk db2 e2 =>
        have hc2 : db2.calls = db1.calls := by
          have h := syncQuestions_calls db1 p sid
          rw [hsq] at h
          exact h
        cases e2 with
        | some e =>
          left
          simp only [hsq]
          rw [hc2, hc1]
        | none =>
          by_cases hih : ih = true
          · right
            simp only [hsq, hih, if_true]
            rw [hotLeadSync_calls, hc2, hc1]
          · left
            simp only [Bool.not_eq_true] at hih
            simp only [hsq, hih, Bool.false_eq_true, if_false]
            rw [hc2, hc1]

theorem collectChildren_calls_lookup (db : DB) (p : Dict) (ih : Bool) (hr : Value)
    (ph : String) (sid : Nat) (row : TableRow)
    (hrow : row ∈ ((collectChildren db p ih hr ph sid).2).calls) :
    ∃ row0 ∈ db.calls, row0.rid = row.rid ∧
      lookupA row.data "call_id" = lookupA row0.data "call_id" := by
  rcases collectChildren_calls_shape db p ih hr ph sid with hs | hs
  · rw [hs] at hrow
    exact ⟨row, hrow, rfl, rfl⟩
  · rw [hs] at hrow
    obtain ⟨row0, hrow0, heq⟩ := List.mem_map.mp hrow
    by_cases ht : row0.rid = sid
    · rw [if_pos ht] at heq
      refine ⟨row0, hrow0, ?_, ?_⟩
      · rw [← heq]
      · rw [← heq]
        show lookupA (dictMerge row0.data _) "call_id" = lookupA row0.data "call_id"
        rw [lookupA_dictMerge]
        rfl
    · rw [if_neg ht] at heq
      exact ⟨row0, hrow0, by rw [heq], by rw [heq]⟩

/-- C9 (confirmed): when the handler runs with the sentinel call id "unknown"
and the phone fallback finds an existing record, the full-replace update
writes "unknown" into that record's external call id column — no fresh id is
synthesized on the update path, and the previously stored external id is
lost. -/
theorem thm_C9 (db : DB) (p : Dict) (payload : Value) (ph : String) (r : TableRow)
    (hphone : collectPhone (collectPrep p).1 = .ok ph)
    (hfound : maxByStamp (findByCol db.calls "caller_phone" (.str ph)) = some r) :
    ∀ row ∈ (handle_collect_caller_info db "unknown" p payload).2.calls,
      row.rid = r.rid → lookupA row.data "call_id" = some (.str "unknown") := by
  intro row hrow hrid
  have hH : handle_collect_caller_info db "unknown" p payload =
      collectChildren
        { db with
          calls := updateById db.calls r.rid
            (mkCallData "unknown" (collectPrep p).1 (collectPrep p).2.1 db.clock payload)
            (some db.clock),
          conversation_topics := db.conversation_topics.filter (fun t => t.1 ≠ r.rid),
          questions_asked := db.questions_asked.filter (fun q => q.1 ≠ r.rid) }
        (collectPrep p).1 (collectPrep p).2.1 (collectPrep p).2.2 ph r.rid := by
    simp only [handle_collect_caller_info, hphone]
    rw [if_neg (show ¬("unknown" ≠ "" ∧ "unknown" ≠ "unknown") by simp), hfound]
    rfl
  rw [hH] at hrow
  obtain ⟨row0, hrow0, hr0rid, hr0look⟩ :=
    collectChildren_calls_lookup _ _ _ _ _ _ row hrow
  rw [hr0look]
  refine updateById_mem_lookup db.calls r.rid
    (mkCallData "unknown" (collectPrep p).1 (collectPrep p).2.1 db.clock payload)
    (some db.clock) "call_id" (.str "unknown") rfl row0 hrow0 ?_
  rw [hr0rid, hrid]

/-- C9 (witness): a store holding one record with external id "old-ext" and
phone "555", invoked with call id "unknown" and that phone: the stored
external id is overwritten with "unknown". -/
theorem thm_C9_witness :
    lookupA ((handle_collect_caller_info
      ⟨[⟨3, 0, [("call_id", Value.str "old-ext"), ("caller_phone", Value.str "555")]⟩],
        [], [], [], [], [], 4, 1⟩ "unknown" [("caller_phone", Value.str "555")]
      Value.null).2.calls.headD ⟨0, 0, []⟩).data "call_id" =
      some (Value.str "unknown") := by
  have h := thm_C9
    ⟨[⟨3, 0, [("call_id", Value.str "old-ext"), ("caller_phone", Value.str "555")]⟩],
      [], [], [], [], [], 4, 1⟩
    [("caller_phone", Value.str "555")] Value.null "555"
    ⟨3, 0, [("call_id", Value.str "old-ext"), ("caller_phone", Value.str "555")]⟩
    (by decide) (by decide)
  exact h _ (by decide) (by decide)

/-! ## The collect handler as a reconciler (claim C1) -/

theorem updateById_not_mem (t : List TableRow) (target : Nat) (d : Dict)
    (ns : Option Nat) (h : ∀ row ∈ t, row.rid ≠ target) :
    updateById t target d ns = t := by
  unfold updateById
  calc t.map (fun r => if r.rid = target then
        (⟨r.rid, ns.getD r.stamp, dictMerge r.data d⟩ : TableRow) else r)
      = t.map id := List.map_congr_left (fun row hrow => by rw [if_neg (h row hrow)]; rfl)
    _ = t := List.map_id _

theorem updateById_append (a b : List TableRow) (target : Nat) (d : Dict)
    (ns : Option Nat) :
    updateById (a ++ b) target d ns =
      updateById a target d ns ++ updateById b target d ns :=
  List.map_append _ a b

theorem syncTopics_arr (db : DB) (p : Dict) (sid : Nat) (ts : List Value)
    (hts : dictGetD p "conversation_topics" (.arr []) = .arr ts) :
    syncTopics db p sid =
      ({ db with conversation_topics :=
          db.conversation_topics ++ ts.map (fun t => (sid, t)) }, none) := by
  unfold syncTopics
  dsimp only
  rw [hts]
  by_cases h : ts = []
  · subst h
    simp [Value.truthy]
  · have htr : (Value.arr ts).truthy = true := by
      simp [Value.truthy, h]
    rw [htr]
    simp [pyIter]

theorem syncQuestions_arr (db : DB) (p : Dict) (sid : Nat) (qs : List Value)
    (hqs : dictGetD p "questions_asked" (.arr []) = .arr qs) :
    syncQuestions db p sid =
      ({ db with questions_asked :=
          db.questions_asked ++ qs.map (fun q => (sid, q)) }, none) := by
  unfold syncQuestions
  dsimp only
  rw [hqs]
  by_cases h : qs = []
  · subst h
    simp [Value.truthy]
  · have htr : (Value.arr qs).truthy = true := by
      simp [Value.truthy, h]
    rw [htr]
    simp [pyIter]

theorem hotLeadSync_topics (db : DB) (p : Dict) (hr : Value) (ph : String) (sid : Nat) :
    (hotLeadSync db p hr ph sid).conversation_topics = db.conversation_topics := by
  unfold hotLeadSync
  dsimp only
  repeat' split
  all_goals rfl

theorem hotLeadSync_questions (db : DB) (p : Dict) (hr : Value) (ph : String) (sid : Nat) :
    (hotLeadSync db p hr ph sid).questions_asked = db.questions_asked := by
  unfold hotLeadSync
  dsimp only
  repeat' split
  all_goals rfl

theorem collectChildren_arr (db : DB) (p : Dict) (ih : Bool) (hr : Value) (ph : String)
    (sid : Nat) (ts qs : List Value)
    (hts : dictGetD p "conversation_topics" (.arr []) = .arr ts)
    (hqs : dictGetD p "questions_asked" (.arr []) = .arr qs) :
    (collectChildren db p ih hr ph sid).1 = okDict "Caller info processed successfully"
    ∧ (collectChildren db p ih hr ph sid).2.conversation_topics =
        db.conversation_topics ++ ts.map (fun t => (sid, t))
    ∧ (collectChildren db p ih hr ph sid).2.questions_asked =
        db.questions_asked ++ qs.map (fun q => (sid, q))
    ∧ ((collectChildren db p ih hr ph sid).2.calls = db.calls ∨
        (collectChildren db p ih hr ph sid).2.calls =
          updateById db.calls sid [("is_hot_lead", .bool true), ("hot_lead_reason", hr)]
            none) := by
  unfold collectChildren
  rw [syncTopics_arr db p sid ts hts]
  dsimp only
  rw [syncQuestions_arr _ p sid qs hqs]
  dsimp only
  by_cases hih : ih = true
  · simp only [hih, if_true]
    refine ⟨by trivial, by rw [hotLeadSync_topics], by rw [hotLeadSync_questions],
      Or.inr (by rw [hotLeadSync_calls])⟩
  · simp only [Bool.not_eq_true] at hih
    simp only [hih, Bool.false_eq_true, if_false]
    exact ⟨by trivial, by trivial, by trivial, Or.inl (by trivial)⟩

theorem updateById_singleton (rid s : Nat) (d0 d : Dict) (ns : Option Nat) :
    updateById [(⟨rid, s, d0⟩ : TableRow)] rid d ns =
      [(⟨rid, ns.getD s, dictMerge d0 d⟩ : TableRow)] := by
  unfold updateById
  simp

theorem child_replace (X : List (Nat × Value)) (sid : Nat) (ts : List Value) :
    (((X.filter (fun t => t.1 ≠ sid)) ++ ts.map (fun t => (sid, t))).filter
        (fun t => t.1 = sid)).map (fun t => t.2) = ts := by
  rw [List.filter_append]
  have h1 : (X.filter (fun t => t.1 ≠ sid)).filter (fun t => t.1 = sid) = [] := by
    rw [List.filter_filter, List.filter_eq_nil_iff]
    intro a _
    by_cases ha : a.1 = sid <;> simp [ha]
  have h2 : (ts.map (fun t => (sid, t))).filter (fun t => t.1 = sid) =
      ts.map (fun t => (sid, t)) := by
    rw [List.filter_eq_self]
    intro a ha
    obtain ⟨t, _, rfl⟩ := List.mem_map.mp ha
    simp
  rw [h1, h2, List.nil_append, List.map_map]
  simp

/-- C1 (confirmed): invoking the collect handler twice in succession with the
same usable external call id (non-empty and not the sentinel "unknown"),
starting from a well-formed store holding no record for that id, leaves
exactly one persisted CallRecord for that id: the first invocation inserts one
row, the second takes the update path (the row count does not grow), and the
second invocation's topic and question lists fully replace the first's child
rows — one row per incoming item, empty lists yielding no rows and no error
(the second invocation reports success). -/
theorem thm_C1 (db : DB) (cid : String) (p1 p2 : Dict) (pay1 pay2 : Value)
    (ph1 ph2 : String) (ts2 qs2 : List Value)
    (hcid1 : cid ≠ "") (hcid2 : cid ≠ "unknown")
    (hwf : callsWf db)
    (hcount : countByCallId db cid = 0)
    (hph1 : collectPhone (collectPrep p1).1 = .ok ph1)
    (hph2 : collectPhone (collectPrep p2).1 = .ok ph2)
    (hts2 : dictGetD (collectPrep p2).1 "conversation_topics" (.arr []) = .arr ts2)
    (hqs2 : dictGetD (collectPrep p2).1 "questions_asked" (.arr []) = .arr qs2) :
    countByCallId (handle_collect_caller_info
      (handle_collect_caller_info db cid p1 pay1).2 cid p2 pay2).2 cid = 1
    ∧ (handle_collect_caller_info db cid p1 pay1).2.calls.length = db.calls.length + 1
    ∧ (handle_collect_caller_info (handle_collect_caller_info db cid p1 pay1).2 cid
        p2 pay2).2.calls.length =
        (handle_collect_caller_info db cid p1 pay1).2.calls.length
    ∧ ((handle_collect_caller_info (handle_collect_caller_info db cid p1 pay1).2 cid
        p2 pay2).2.conversation_topics.filter (fun t => t.1 = db.nextId)).map
          (fun t => t.2) = ts2
    ∧ ((handle_collect_caller_info (handle_collect_caller_info db cid p1 pay1).2 cid
        p2 pay2).2.questions_asked.filter (fun q => q.1 = db.nextId)).map
          (fun q => q.2) = qs2
    ∧ lookupA (handle_collect_caller_info (handle_collect_caller_info db cid p1 pay1).2
        cid p2 pay2).1 "success" = some (.bool true) := by
  have hfind0 : findByCol db.calls "call_id" (.str cid) = [] := by
    have hc := hcount
    unfold countByCallId at hc
    exact List.length_eq_zero.mp hc
  have hne : ∀ row ∈ db.calls, row.rid ≠ db.nextId :=
    fun row hrow => Nat.ne_of_lt (hwf row hrow)
  have hl0 : db.calls.filter (colEq "call_id" (.str cid)) = [] := hfind0
  -- the first invocation takes the insert branch
  have hH1 : handle_collect_caller_info db cid p1 pay1 =
      collectChildren
        { db with
          calls := db.calls ++ [(⟨db.nextId, db.clock,
            mkCallData cid (collectPrep p1).1 (collectPrep p1).2.1 db.clock pay1⟩
              : TableRow)],
          nextId := db.nextId + 1 }
        (collectPrep p1).1 (collectPrep p1).2.1 (collectPrep p1).2.2 ph1 db.nextId := by
    simp only [handle_collect_caller_info, hph1]
    rw [if_pos ⟨hcid1, hcid2⟩, hfind0]
    rw [if_neg (not_or.mpr ⟨hcid1, hcid2⟩)]
  set R1db := (handle_collect_caller_info db cid p1 pay1).2 with hR1db
  -- shape of the store after the first invocation
  obtain ⟨s1, d1, hcalls1, hd1⟩ :
      ∃ s1 d1, R1db.calls = db.calls ++ [(⟨db.nextId, s1, d1⟩ : TableRow)]
        ∧ lookupA d1 "call_id" = some (.str cid) := by
    rw [hR1db, hH1]
    rcases collectChildren_calls_shape
      { db with
        calls := db.calls ++ [(⟨db.nextId, db.clock,
          mkCallData cid (collectPrep p1).1 (collectPrep p1).2.1 db.clock pay1⟩
            : TableRow)],
        nextId := db.nextId + 1 }
      (collectPrep p1).1 (collectPrep p1).2.1 (collectPrep p1).2.2 ph1 db.nextId
      with hs | hs
    · exact ⟨db.clock,
        mkCallData cid (collectPrep p1).1 (collectPrep p1).2.1 db.clock pay1,
        by rw [hs], rfl⟩
    · refine ⟨db.clock,
        dictMerge (mkCallData cid (collectPrep p1).1 (collectPrep p1).2.1 db.clock pay1)
          [("is_hot_lead", .bool true), ("hot_lead_reason", (collectPrep p1).2.2)],
        ?_, ?_⟩
      · rw [hs]
        show updateById (db.calls ++ _) db.nextId _ none = _
        rw [updateById_append, updateById_not_mem db.calls _ _ _ hne,
          updateById_singleton]
        rfl
      · rw [lookupA_dictMerge]
        rfl
  -- the second invocation finds exactly that row
  have hfind1 : findByCol R1db.calls "call_id" (.str cid) =
      [(⟨db.nextId, s1, d1⟩ : TableRow)] := by
    rw [hcalls1]
    unfold findByCol
    rw [List.filter_append, hl0]
    have hc : colEq "call_id" (.str cid) (⟨db.nextId, s1, d1⟩ : TableRow) = true := by
      unfold colEq
      rw [show lookupA (⟨db.nextId, s1, d1⟩ : TableRow).data "call_id" =
        some (.str cid) from hd1]
      simp
    simp [List.filter, hc]
  -- the second invocation takes the update branch
  have hH2 : handle_collect_caller_info R1db cid p2 pay2 =
      collectChildren
        { R1db with
          calls := updateById R1db.calls db.nextId
            (mkCallData cid (collectPrep p2).1 (collectPrep p2).2.1 R1db.clock pay2)
            (some R1db.clock),
          conversation_topics :=
            R1db.conversation_topics.filter (fun t => t.1 ≠ db.nextId),
          questions_asked :=
            R1db.questions_asked.filter (fun q => q.1 ≠ db.nextId) }
        (collectPrep p2).1 (collectPrep p2).2.1 (collectPrep p2).2.2 ph2 db.nextId := by
    simp only [handle_collect_caller_info, hph2]
    rw [if_pos ⟨hcid1, hcid2⟩, hfind1]
  obtain ⟨hres2, htop2, hque2, hcalls2⟩ := collectChildren_arr
    { R1db with
      calls := updateById R1db.calls db.nextId
        (mkCallData cid (collectPrep p2).1 (collectPrep p2).2.1 R1db.clock pay2)
        (some R1db.clock),
      conversation_topics := R1db.conversation_topics.filter (fun t => t.1 ≠ db.nextId),
      questions_asked := R1db.questions_asked.filter (fun q => q.1 ≠ db.nextId) }
    (collectPrep p2).1 (collectPrep p2).2.1 (collectPrep p2).2.2 ph2 db.nextId ts2 qs2
    hts2 hqs2
  have hdb2calls : updateById R1db.calls db.nextId
      (mkCallData cid (collectPrep p2).1 (collectPrep p2).2.1 R1db.clock pay2)
      (some R1db.clock) =
      db.calls ++ [(⟨db.nextId, R1db.clock, dictMerge d1
        (mkCallData cid (collectPrep p2).1 (collectPrep p2).2.1 R1db.clock pay2)⟩
          : TableRow)] := by
    rw [hcalls1, updateById_append, updateById_not_mem db.calls _ _ _ hne,
      updateById_singleton]
    rfl
  -- shape of the store after the second invocation
  obtain ⟨sF, dF, hcallsF, hdF⟩ :
      ∃ sF dF, (handle_collect_caller_info R1db cid p2 pay2).2.calls =
        db.calls ++ [(⟨db.nextId, sF, dF⟩ : TableRow)]
        ∧ lookupA dF "call_id" = some (.str cid) := by
    rw [hH2]
    rcases hcalls2 with hs | hs
    · refine ⟨R1db.clock, dictMerge d1
        (mkCallData cid (collectPrep p2).1 (collectPrep p2).2.1 R1db.clock pay2),
        ?_, ?_⟩
      · rw [hs]
        exact hdb2calls
      · rw [lookupA_dictMerge]
        rfl
    · refine ⟨R1db.clock, dictMerge (dictMerge d1
        (mkCallData cid (collectPrep p2).1 (collectPrep p2).2.1 R1db.clock pay2))
          [("is_hot_lead", .bool true), ("hot_lead_reason", (collectPrep p2).2.2)],
        ?_, ?_⟩
      · rw [hs]
        show updateById (updateById R1db.calls db.nextId _ (some R1db.clock))
          db.nextId _ none = _
        rw [hdb2calls, updateById_append, updateById_not_mem db.calls _ _ _ hne,
          updateById_singleton]
        rfl
      · rw [lookupA_dictMerge, lookupA_dictMerge]
        rfl
  refine ⟨?_, ?_, ?_, ?_, ?_, ?_⟩
  · unfold countByCallId findByCol
    rw [hcallsF, List.filter_append, hl0]
    have hc : colEq "call_id" (.str cid) (⟨db.nextId, sF, dF⟩ : TableRow) = true := by
      unfold colEq
      rw [show lookupA (⟨db.nextId, sF, dF⟩ : TableRow).data "call_id" =
        some (.str cid) from hdF]
      simp
    simp [List.filter, hc]
  · rw [hcalls1]
    simp
  · rw [hcallsF, hcalls1]
    simp
  · rw [hH2, htop2]
    exact child_replace R1db.conversation_topics db.nextId ts2
  · rw [hH2, hque2]
    exact child_replace R1db.questions_asked db.nextId qs2
  · rw [hH2, hres2]
    rfl

/-- C1 (witness): the reconciliation theorem applied on an empty store with
call id "c1", first topics ["t1"], second topics ["t2","t3"] and an empty
questions list. -/
theorem thm_C1_witness :
    countByCallId (handle_collect_caller_info
      (handle_collect_caller_info ⟨[], [], [], [], [], [], 0, 0⟩ "c1"
        [("caller_phone", .str "555"), ("conversation_topics", .arr [.str "t1"])]
        Value.null).2 "c1"
      [("conversation_topics", .arr [.str "t2", .str "t3"]),
        ("questions_asked", .arr [])] Value.null).2 "c1" = 1
    ∧ (handle_collect_caller_info ⟨[], [], [], [], [], [], 0, 0⟩ "c1"
        [("caller_phone", .str "555"), ("conversation_topics", .arr [.str "t1"])]
        Value.null).2.calls.length =
        (⟨[], [], [], [], [], [], 0, 0⟩ : DB).calls.length + 1
    ∧ (handle_collect_caller_info
        (handle_collect_caller_info ⟨[], [], [], [], [], [], 0, 0⟩ "c1"
          [("caller_phone", .str "555"), ("conversation_topics", .arr [.str "t1"])]
          Value.null).2 "c1"
        [("conversation_topics", .arr [.str "t2", .str "t3"]),
          ("questions_asked", .arr [])] Value.null).2.calls.length =
        (handle_collect_caller_info ⟨[], [], [], [], [], [], 0, 0⟩ "c1"
          [("caller_phone", .str "555"), ("conversation_topics", .arr [.str "t1"])]
          Value.null).2.calls.length
    ∧ ((handle_collect_caller_info
        (handle_collect_caller_info ⟨[], [], [], [], [], [], 0, 0⟩ "c1"
          [("caller_phone", .str "555"), ("conversation_topics", .arr [.str "t1"])]
          Value.null).2 "c1"
        [("conversation_topics", .arr [.str "t2", .str "t3"]),
          ("questions_asked", .arr [])] Value.null).2.conversation_topics.filter
            (fun t => t.1 = (⟨[], [], [], [], [], [], 0, 0⟩ : DB).nextId)).map
          (fun t => t.2) = [.str "t2", .str "t3"]
    ∧ ((handle_collect_caller_info
        (handle_collect_caller_info ⟨[], [], [], [], [], [], 0, 0⟩ "c1"
          [("caller_phone", .str "555"), ("conversation_topics", .arr [.str "t1"])]
          Value.null).2 "c1"
        [("conversation_topics", .arr [.str "t2", .str "t3"]),
          ("questions_asked", .arr [])] Value.null).2.questions_asked.filter
            (fun q => q.1 = (⟨[], [], [], [], [], [], 0, 0⟩ : DB).nextId)).map
          (fun q => q.2) = []
    ∧ lookupA (handle_collect_caller_info
        (handle_collect_caller_info ⟨[], [], [], [], [], [], 0, 0⟩ "c1"
          [("caller_phone", .str "555"), ("conversation_topics", .arr [.str "t1"])]
          Value.null).2 "c1"
        [("conversation_topics", .arr [.str "t2", .str "t3"]),
          ("questions_asked", .arr [])] Value.null).1 "success" =
        some (.bool true) :=
  thm_C1 ⟨[], [], [], [], [], [], 0, 0⟩ "c1"
    [("caller_phone", .str "555"), ("conversation_topics", .arr [.str "t1"])]
    [("conversation_topics", .arr [.str "t2", .str "t3"]), ("questions_asked", .arr [])]
    Value.null Value.null "555" "" [.str "t2", .str "t3"] []
    (by decide) (by decide)
    (fun row hrow => absurd hrow (List.not_mem_nil row))
    (by decide) (by decide) (by decide) (by decide) (by decide)

end Realflow
